import Mathlib

/-!
Verification development for the bike-share analytics assistant's
natural-language-to-SQL compiler.  The definitions below are a shallow
embedding of `src/semantic_mapper.ts` and `src/sql_generator.ts`:
JavaScript strings become Lean `String`s, JS numbers used for similarity
scores become `ℚ` (all scores in the source are exact decimal fractions,
so rational arithmetic models IEEE doubles exactly on every value the
program produces), JS `Date` becomes an explicit calendar record, and the
per-instance memoization cache of `SemanticMapper` becomes explicit state
passing.  `toLowerCase` is modelled on the ASCII range (the schema
identifiers and SQL vocabulary the claims are about are ASCII).
-/

namespace BikeShare

/-! ### Basic string machinery (JS `toLowerCase`, `includes`, `join`, …) -/

/-- ASCII uppercase test, `'A' ≤ c ≤ 'Z'` (codes 65..90). -/
def isUp (c : Char) : Bool := 65 ≤ c.toNat && c.toNat ≤ 90

/-- JS `String.prototype.toLowerCase`, restricted to ASCII: uppercase
letters are shifted by 32, all other characters are unchanged. -/
def jsToLower (c : Char) : Char :=
  if isUp c then Char.ofNat (c.toNat + 32) else c

/-- Lower-case every character of a string. -/
def strLower (s : String) : String := ⟨s.data.map jsToLower⟩

/-- Test whether `pat` occurs as a prefix of `l` (character lists). -/
def isPre : List Char → List Char → Bool
  | [], _ => true
  | _ :: _, [] => false
  | a :: as, b :: bs => a == b && isPre as bs

/-- Test whether `pat` occurs as a contiguous substring of `hay`; this is JS
`hay.includes(pat)` on character lists. -/
def listContains (hay pat : List Char) : Bool :=
  if isPre pat hay then true else
    match hay with
    | [] => false
    | _ :: t => listContains t pat

/-- JS `s.includes(pat)`. -/
def strIncludes (s pat : String) : Bool := listContains s.data pat.data

/-- The substring relation as a proposition: `pat` occurs contiguously
inside `l`. -/
def SubL (pat l : List Char) : Prop := ∃ s t, l = s ++ pat ++ t

/-- Decimal digit character for `n < 10`. -/
def digitChar (n : Nat) : Char := Char.ofNat (48 + n % 10)

/-- Decimal digits of `n` (most significant first), fuelled recursion. -/
def natReprCore : Nat → Nat → List Char → List Char
  | 0, _, acc => acc
  | fuel + 1, n, acc =>
    let d := digitChar (n % 10)
    let q := n / 10
    if q = 0 then d :: acc else natReprCore fuel q (d :: acc)

/-- Decimal representation of a natural number, as produced by JS string
interpolation of an integer. -/
def natRepr (n : Nat) : String := ⟨natReprCore (n + 1) n []⟩

/-- JS `array.join(' ')`. -/
def joinSp : List String → String
  | [] => ""
  | [a] => a
  | a :: b :: t => a ++ " " ++ joinSp (b :: t)

/-- JS `array.join(' AND ')`. -/
def joinAnd : List String → String
  | [] => ""
  | [a] => a
  | a :: b :: t => a ++ " AND " ++ joinAnd (b :: t)

/-- JS `array.join('|')`. -/
def joinBar : List String → String
  | [] => ""
  | [a] => a
  | a :: b :: t => a ++ "|" ++ joinBar (b :: t)

/-- Whitespace test used when modelling `trim` and the tokenizer split. -/
def isWs (c : Char) : Bool := c = ' ' || c = '\t' || c = '\n' || c = '\r'

/-- JS `s.trim()` on character lists. -/
def trimL (l : List Char) : List Char :=
  ((l.dropWhile isWs).reverse.dropWhile isWs).reverse

/-- JS `s.trim()`. -/
def strTrim (s : String) : String := ⟨trimL s.data⟩

/-! ### The bigram Dice similarity of the `string-similarity` package

`compareTwoStrings` of the `string-similarity` npm package: strip
whitespace, compare bigram multisets, Dice coefficient
`2·|intersection| / (|a| + |b| - 2)`. -/

/-- Adjacent character pairs of a list. -/
def bigrams : List Char → List (Char × Char)
  | a :: b :: t => (a, b) :: bigrams (b :: t)
  | _ => []

/-- Size of the multiset intersection, computed exactly as the package
does: walk the second list, consuming one occurrence from the first on
each hit. -/
def interCount : List (Char × Char) → List (Char × Char) → Nat
  | _, [] => 0
  | b1, x :: xs =>
    if b1.contains x then 1 + interCount (b1.erase x) xs
    else interCount b1 xs

/-- The function `compareTwoStrings(first, second)` of the `string-similarity`
package, over exact rationals. -/
def compareTwoStrings (first second : String) : ℚ :=
  let f := first.data.filter (fun c => !isWs c)
  let s := second.data.filter (fun c => !isWs c)
  if f = s then 1
  else if f.length < 2 ∨ s.length < 2 then 0
  else (2 * (interCount (bigrams f) (bigrams s) : ℚ)) /
       ((f.length : ℚ) + (s.length : ℚ) - 2)

/-! ### Data model (`database_service.ts`, `semantic_mapper.ts`) -/

structure ColumnInfo where
  column_name : String
  data_type : String
deriving DecidableEq, Repr

structure TableInfo where
  table_name : String
  columns : List ColumnInfo
deriving DecidableEq, Repr

structure ColumnMapping where
  table : String
  column : String
  similarity : ℚ
  type : String
deriving DecidableEq, Repr

inductive QueryIntent where
  | count | average | sum | max | min | list | filter
deriving DecidableEq, Repr

structure SemanticContext where
  tables : List TableInfo
  userWords : List String
  intent : QueryIntent
deriving Repr

/-- A bound parameter value (`params: any[]` holds strings and the
number `0` in this program). -/
inductive PVal where
  | str : String → PVal
  | num : Nat → PVal
deriving DecidableEq, Repr

structure SQLQuery where
  sql : String
  params : List PVal
deriving DecidableEq, Repr

/-! ### `SemanticMapper` -/

/-- Stop-word set of `extractUserWords`. -/
def stopWords : List String :=
  ["the", "a", "an", "and", "or", "but", "in", "on", "at", "to", "for",
   "of", "with", "by", "what", "when", "where", "why", "how", "which",
   "who", "was", "were", "is", "are", "be", "been", "being", "have",
   "has", "had", "do", "does", "did", "will", "would", "could", "should"]

/-- JS `\w` character class: `[A-Za-z0-9_]`. -/
def isWordChar (c : Char) : Bool :=
  ('a' ≤ c && c ≤ 'z') || ('A' ≤ c && c ≤ 'Z') || ('0' ≤ c && c ≤ '9') || c = '_'

/-- Split on runs of spaces, dropping empty fragments (the source splits
on `/\s+/` after replacing every non-word character by a space; the empty
fragments the JS split can produce are removed by the length filter that
always follows, so dropping them here is observation-equivalent). -/
def splitSpAux : List Char → List Char → List (List Char)
  | [], acc => if acc = [] then [] else [acc.reverse]
  | c :: t, acc =>
    if c = ' ' then
      if acc = [] then splitSpAux t [] else acc.reverse :: splitSpAux t []
    else splitSpAux t (c :: acc)

/-- Core of the first-occurrence deduplication, carrying the set of
already-seen elements. -/
def dedupFirstAux (seen : List String) : List String → List String
  | [] => []
  | a :: t =>
    if seen.contains a then dedupFirstAux seen t
    else a :: dedupFirstAux (a :: seen) t

/-- Keep the first occurrence of every element
(`arr.filter((w, i, a) => a.indexOf(w) === i)`, also `[...new Set(arr)]`). -/
def dedupFirst (l : List String) : List String := dedupFirstAux [] l

/-- Embedding of `SemanticMapper.extractUserWords`: lower-case, replace non-word
characters by spaces, split, keep words longer than 2 that are not stop
words, deduplicate preserving first-seen order. -/
def extractUserWords (question : String) : List String :=
  let cleaned := (strLower question).data.map
    (fun c => if isWordChar c then c else ' ')
  let words := (splitSpAux cleaned []).map (fun l => (⟨l⟩ : String))
  dedupFirst (words.filter
    (fun word => 2 < word.length && !stopWords.contains word))

/-- Embedding of `SemanticMapper.detectIntent`: ordered substring checks on the
lower-cased question; distance vocabulary first. -/
def detectIntent (question : String) : QueryIntent :=
  let lowerQuestion := strLower question
  if strIncludes lowerQuestion "kilometres" || strIncludes lowerQuestion "km" ||
     strIncludes lowerQuestion "distance" || strIncludes lowerQuestion "miles" then
    QueryIntent.sum
  else if strIncludes lowerQuestion "average" || strIncludes lowerQuestion "avg" then
    QueryIntent.average
  else if strIncludes lowerQuestion "sum" || strIncludes lowerQuestion "total" then
    QueryIntent.sum
  else if strIncludes lowerQuestion "maximum" || strIncludes lowerQuestion "max" ||
          strIncludes lowerQuestion "most" then
    QueryIntent.max
  else if strIncludes lowerQuestion "minimum" || strIncludes lowerQuestion "min" ||
          strIncludes lowerQuestion "least" then
    QueryIntent.min
  else if strIncludes lowerQuestion "count" || strIncludes lowerQuestion "how many" then
    QueryIntent.count
  else if strIncludes lowerQuestion "which" || strIncludes lowerQuestion "what" ||
          strIncludes lowerQuestion "list" then
    QueryIntent.list
  else QueryIntent.filter

/-- Embedding of `SemanticMapper.getSynonyms`: the fixed synonym table. -/
def getSynonyms (word : String) : List String :=
  let w := strLower word
  if w = "time" then ["duration", "minutes", "hours", "ride_time"]
  else if w = "duration" then ["time", "minutes", "hours", "ride_time"]
  else if w = "minutes" then ["time", "duration", "hours", "ride_time"]
  else if w = "station" then ["docking", "point", "stop", "hub", "avenue"]
  else if w = "docking" then ["station", "point", "stop", "hub", "avenue"]
  else if w = "point" then ["station", "docking", "stop", "hub", "avenue"]
  else if w = "departure" then ["start", "beginning", "leave", "depart"]
  else if w = "start" then ["departure", "beginning", "leave", "depart"]
  else if w = "kilometres" then ["km", "distance", "miles", "length"]
  else if w = "km" then ["kilometres", "distance", "miles", "length"]
  else if w = "distance" then ["kilometres", "km", "miles", "length"]
  else if w = "women" then ["female", "woman", "girl"]
  else if w = "female" then ["women", "woman", "girl"]
  else if w = "rainy" then ["rain", "wet", "stormy", "precipitation"]
  else if w = "rain" then ["rainy", "wet", "stormy", "precipitation"]
  else if w = "congress" then ["avenue", "street", "road"]
  else if w = "avenue" then ["congress", "street", "road"]
  else []

/-- JS `Math.max` on exact rationals, written out so that it evaluates by
kernel reduction. -/
def rmax (a b : ℚ) : ℚ := if a ≤ b then b else a

/-- The per-pair similarity computation of `findBestColumnMatches`:
`similarity` starts at 0, is raised to 0.9 on direct containment, to 0.8
on synonym containment (one fold step per synonym), to the Dice
similarity, then gets the flat 0.1 table-name bonus. -/
def matchSimilarity (word columnName tableName : String) : ℚ :=
  let s0 : ℚ := 0
  let s1 := if strIncludes columnName word || strIncludes word columnName
            then rmax s0 (9/10) else s0
  let s2 := (getSynonyms word).foldl
    (fun s syn => if strIncludes columnName syn || strIncludes syn columnName
                  then rmax s (8/10) else s) s1
  let s3 := rmax s2 (compareTwoStrings word columnName)
  if strIncludes tableName word || strIncludes word tableName
  then s3 + 1/10 else s3

/-- Stable descending insertion by `similarity` (the source sorts with
`(a, b) => b.similarity - a.similarity`; JS `sort` is stable). -/
def insertDesc (m : ColumnMapping) : List ColumnMapping → List ColumnMapping
  | [] => [m]
  | x :: xs => if x.similarity ≤ m.similarity then m :: x :: xs
               else x :: insertDesc m xs

/-- Stable sort, descending by `similarity`. -/
def sortDesc : List ColumnMapping → List ColumnMapping
  | [] => []
  | a :: t => insertDesc a (sortDesc t)

/-- Embedding of `SemanticMapper.findBestColumnMatches`, the stateless computation:
for every table, column and user word (in that loop nesting order), keep
the pair when the final similarity reaches the threshold, then sort
descending by similarity.  The memoization cache of the source is
modelled separately by `findBestColumnMatchesCached`. -/
def findBestColumnMatches (schema : List TableInfo) (userWords : List String)
    (minSimilarity : ℚ := 3/10) : List ColumnMapping :=
  sortDesc (schema.flatMap fun table =>
    table.columns.flatMap fun column =>
      let columnName := strLower column.column_name
      let tableName := strLower table.table_name
      userWords.filterMap fun word =>
        let similarity := matchSimilarity word columnName tableName
        if minSimilarity ≤ similarity then
          some ⟨tableName, columnName, similarity, column.data_type⟩
        else none)

/-- The memoization cache of `SemanticMapper` (`columnCache`), modelled
as an association list from cache key to cached result. -/
def Cache := List (String × List ColumnMapping)

/-- The cache key: `userWords.join('|')`. -/
def cacheKey (userWords : List String) : String := joinBar userWords

/-- Embedding of `SemanticMapper.findBestColumnMatches` with its cache: on a hit the
cached list is returned and the cache is unchanged; on a miss the result
is computed and stored under the key. -/
def findBestColumnMatchesCached (cache : Cache) (schema : List TableInfo)
    (userWords : List String) : List ColumnMapping × Cache :=
  let key := cacheKey userWords
  match List.lookup key cache with
  | some v => (v, cache)
  | none =>
    let r := findBestColumnMatches schema userWords
    (r, (key, r) :: cache)

/-- Embedding of `SemanticMapper.buildSemanticContext`. -/
def buildSemanticContext (schema : List TableInfo) (question : String) :
    SemanticContext :=
  { tables := schema
    userWords := extractUserWords question
    intent := detectIntent question }

/-! ### Calendar model for JS `Date`

`extractDateRange` builds `Date` values with the constructor
`new Date(y, m, d, hh, mm, ss, ms)` and with `setMonth(m, d)`, both of
which normalize out-of-range months and interpret day `0` as the last
day of the previous month.  The model keeps broken-down local time; the
timestamp formatting `toISOString().slice(0, 19).replace('T', ' ')` is
modelled with the local-time-equals-UTC convention (no claim depends on
the timezone offset). -/

structure JDate where
  year : Int
  month : Int   -- 0-based month, normalized to 0..11 by the operations
  day : Nat
  hour : Nat
  minute : Nat
  second : Nat
  ms : Nat
deriving DecidableEq, Repr

/-- Gregorian leap-year rule. -/
def isLeap (y : Int) : Bool := (y % 4 = 0 && y % 100 ≠ 0) || y % 400 = 0

/-- Days in 0-based month `m` of year `y`. -/
def daysInMonth (y : Int) (m : Nat) : Nat :=
  if m = 1 then (if isLeap y then 29 else 28)
  else if m = 3 ∨ m = 5 ∨ m = 8 ∨ m = 10 then 30
  else 31

/-- Normalize a (year, 0-based month) pair so the month lands in 0..11,
as JS `Date` does for out-of-range month arguments. -/
def normYM (y m : Int) : Int × Nat :=
  let q := Int.fdiv m 12
  (y + q, (m - 12 * q).toNat)

/-- JS `d.setMonth(m, day)` restricted to the day values the generator
uses (`day = 0` means the last day of the preceding month; positive days
are in range in every call site). -/
def setMonthDay (d : JDate) (m : Int) (day : Nat) : JDate :=
  let ym := normYM d.year m
  if day = 0 then
    let ym2 := normYM ym.1 ((ym.2 : Int) - 1)
    { d with year := ym2.1, month := (ym2.2 : Int), day := daysInMonth ym2.1 ym2.2 }
  else
    { d with year := ym.1, month := (ym.2 : Int), day := day }

/-- JS `d.setHours(hh, mm, ss, ms)`. -/
def setHMSms (d : JDate) (hh mm ss ms : Nat) : JDate :=
  { d with hour := hh, minute := mm, second := ss, ms := ms }

structure DateRange where
  start : JDate
  «end» : JDate
deriving DecidableEq, Repr

/-- Left-pad a decimal number to two digits. -/
def pad2 (n : Nat) : String := if n < 10 then "0" ++ natRepr n else natRepr n

/-- Left-pad a year to four digits. -/
def pad4 (n : Nat) : String :=
  if n < 10 then "000" ++ natRepr n
  else if n < 100 then "00" ++ natRepr n
  else if n < 1000 then "0" ++ natRepr n
  else natRepr n

/-- Model of `date.toISOString().slice(0, 19).replace('T', ' ')`: the
`YYYY-MM-DD HH:mm:ss` timestamp bound as a query parameter. -/
def toSqlTimestamp (d : JDate) : String :=
  pad4 d.year.toNat ++ "-" ++ pad2 (d.month.toNat + 1) ++ "-" ++ pad2 d.day ++
  " " ++ pad2 d.hour ++ ":" ++ pad2 d.minute ++ ":" ++ pad2 d.second

/-- Embedding of `SQLGenerator.extractDateRange`: "last month" relative to `now`,
then "first week" + "june" (hardcoded to June 1-7, 2025), then a bare
"june 2025" / "june" (hardcoded to the full June 2025), else none. -/
def extractDateRange (question : String) (now : JDate) : Option DateRange :=
  let lowerQuestion := strLower question
  if strIncludes lowerQuestion "last month" then
    let lastMonth := setHMSms (setMonthDay now (now.month - 1) 1) 0 0 0 0
    let endOfLastMonth := setHMSms (setMonthDay lastMonth (lastMonth.month + 1) 0) 23 59 59 999
    some ⟨lastMonth, endOfLastMonth⟩
  else if strIncludes lowerQuestion "first week" && strIncludes lowerQuestion "june" then
    some ⟨⟨2025, 5, 1, 0, 0, 0, 0⟩, ⟨2025, 5, 7, 23, 59, 59, 999⟩⟩
  else if strIncludes lowerQuestion "june 2025" || strIncludes lowerQuestion "june" then
    -- `new Date(2025, 6, 0, 23, 59, 59, 999)`: day 0 of July = June 30
    some ⟨⟨2025, 5, 1, 0, 0, 0, 0⟩,
          setHMSms (setMonthDay ⟨2025, 0, 1, 0, 0, 0, 0⟩ 6 0) 23 59 59 999⟩
  else none

/-! ### `SQLGenerator` clause builders -/

/-- Embedding of the `SQLGenerator.findColumn` keyword loop: first mapping whose column
or table name contains the keyword. -/
def findColumnLoop (mappings : List ColumnMapping) : List String → Option ColumnMapping
  | [] => none
  | keyword :: ks =>
    match mappings.find? (fun m =>
      strIncludes (strLower m.column) keyword ||
      strIncludes (strLower m.table) keyword) with
    | some m => some m
    | none => findColumnLoop mappings ks

/-- Embedding of `SQLGenerator.findColumn`: timestamp-typed columns take priority for
date/time keyword sets, then the keyword loop, then the first mapping. -/
def findColumn (mappings : List ColumnMapping) (keywords : List String) :
    Option ColumnMapping :=
  let tsFirst :=
    if keywords.any (fun k => k = "start" ∨ k = "created" ∨ k = "date" ∨ k = "time") then
      mappings.find? (fun m =>
        strIncludes m.type "timestamp" || strIncludes m.type "date" ||
        strIncludes m.type "time")
    else none
  match tsFirst with
  | some m => some m
  | none =>
    match findColumnLoop mappings keywords with
    | some m => some m
    | none => mappings.head?

/-- The numeric SQL type fragments recognized by `findNumericColumn`. -/
def numericTypes : List String :=
  ["integer", "decimal", "numeric", "real", "double", "float", "bigint"]

/-- A mapping's declared type mentions one of the numeric type names. -/
def isNumericMapping (m : ColumnMapping) : Bool :=
  numericTypes.any (fun ty => strIncludes (strLower m.type) ty)

/-- Embedding of the `SQLGenerator.findNumericColumn` keyword loop over numeric-typed
mappings. -/
def findNumericColumnLoop (mappings : List ColumnMapping) : List String → Option ColumnMapping
  | [] => none
  | keyword :: ks =>
    match mappings.find? (fun m =>
      (strIncludes (strLower m.column) keyword ||
       strIncludes (strLower m.table) keyword) && isNumericMapping m) with
    | some m => some m
    | none => findNumericColumnLoop mappings ks

/-- Embedding of `SQLGenerator.findNumericColumn`: keyword-matched numeric column
first, otherwise any numeric column ("Fallback to any numeric column"). -/
def findNumericColumn (mappings : List ColumnMapping) (keywords : List String) :
    Option ColumnMapping :=
  match findNumericColumnLoop mappings keywords with
  | some m => some m
  | none => mappings.find? isNumericMapping

/-- Embedding of `SQLGenerator.buildSelectClause`: the `switch (intent)` with its
fallthrough-to-`SELECT *` default. -/
def buildSelectClause (context : SemanticContext) (mappings : List ColumnMapping) :
    SQLQuery :=
  match context.intent with
  | QueryIntent.count => { sql := "SELECT COUNT(*) as count", params := [] }
  | QueryIntent.average =>
    match findNumericColumn mappings ["time", "duration", "minutes", "hours"] with
    | some _ =>
      { sql := "SELECT ROUND(AVG(EXTRACT(EPOCH FROM (trips.ended_at - trips.started_at))/60)) as average"
        params := [] }
    | none => { sql := "SELECT *", params := [] }
  | QueryIntent.sum =>
    match findNumericColumn mappings ["distance", "kilometres", "km", "miles"] with
    | some _ =>
      { sql := "SELECT ROUND(SUM(trips.trip_distance_km)::numeric, 1) as total"
        params := [] }
    | none => { sql := "SELECT *", params := [] }
  | QueryIntent.max =>
    match findColumn mappings ["station", "point", "dock", "name", "avenue"] with
    | some maxColumn =>
      if strIncludes maxColumn.column "station" || strIncludes maxColumn.column "id" then
        { sql := "SELECT stations.station_name, COUNT(*) as count", params := [] }
      else
        { sql := "SELECT " ++ maxColumn.table ++ "." ++ maxColumn.column ++ ", COUNT(*) as count"
          params := [] }
    | none => { sql := "SELECT *", params := [] }
  | QueryIntent.list =>
    match findColumn mappings ["station", "point", "dock", "name", "avenue"] with
    | some listColumn =>
      { sql := "SELECT " ++ listColumn.table ++ "." ++ listColumn.column, params := [] }
    | none => { sql := "SELECT *", params := [] }
  | _ => { sql := "SELECT *", params := [] }

/-- The station-dimension need: `congress`/`avenue`/`station`/`docking`
as substrings of the lower-cased raw question. -/
def needsStationsB (question : String) : Bool :=
  strIncludes (strLower question) "congress" ||
  strIncludes (strLower question) "avenue" ||
  strIncludes (strLower question) "station" ||
  strIncludes (strLower question) "docking"

/-- The weather-dimension need: `rainy`/`rain` as substrings of the
lower-cased raw question. -/
def needsWeatherB (question : String) : Bool :=
  strIncludes (strLower question) "rainy" ||
  strIncludes (strLower question) "rain"

/-- Embedding of `SQLGenerator.buildFromClause`. -/
def buildFromClause (mappings : List ColumnMapping) (question : String) : SQLQuery :=
  let needsStations := needsStationsB question
  let needsWeather := needsWeatherB question
  if mappings.length = 0 then
    -- default to the trips fact table; note the join keys in this branch
    -- (`stations.id`) differ from every other branch (`stations.station_id`)
    let sql := "FROM trips"
    let sql := if needsWeather then
        sql ++ " LEFT JOIN daily_weather ON DATE(trips.started_at) = daily_weather.weather_date"
      else sql
    let sql := if needsStations then
        sql ++ " LEFT JOIN stations ON trips.start_station_id = stations.id"
      else sql
    { sql := sql, params := [] }
  else
    let tables := dedupFirst (mappings.map (fun m => m.table))
    if tables.length = 1 then
      let t0 := tables.headD ""   -- tables[0]
      if needsStations && t0 ≠ "stations" then
        if t0 = "trips" then
          let sql := "FROM trips LEFT JOIN stations ON trips.start_station_id = stations.station_id"
          let sql := if needsWeather then
              sql ++ " LEFT JOIN daily_weather ON DATE(trips.start_time) = daily_weather.date"
            else sql
          { sql := sql, params := [] }
        else if t0 = "users" then
          let sql := "FROM users LEFT JOIN trips ON users.id = trips.user_id LEFT JOIN stations ON trips.start_station_id = stations.station_id"
          let sql := if needsWeather then
              sql ++ " LEFT JOIN daily_weather ON DATE(trips.started_at) = daily_weather.weather_date"
            else sql
          { sql := sql, params := [] }
        else
          -- neither trips nor users: falls through to the generic return
          { sql := "FROM " ++ t0, params := [] }
      else
        { sql := "FROM " ++ t0, params := [] }
    else if tables.contains "trips" then
      let joinClauses := "FROM trips"
      let joinClauses := if tables.contains "stations" || needsStations then
          joinClauses ++ " LEFT JOIN stations ON trips.start_station_id = stations.station_id"
        else joinClauses
      let joinClauses := if tables.contains "daily_weather" || needsWeather then
          joinClauses ++ " LEFT JOIN daily_weather ON DATE(trips.started_at) = daily_weather.weather_date"
        else joinClauses
      { sql := joinClauses, params := [] }
    else if tables.contains "stations" then
      { sql := "FROM stations", params := [] }
    else
      { sql := "FROM " ++ tables.headD "", params := [] }

/-- The location terms scanned by the filter builder, in loop order. -/
def locationTerms : List String := ["congress avenue", "congress", "avenue"]

/-- The `for (const term of locationTerms) { if ... break }` loop: did
any term match?  All three matches push the identical predicate, so the
first-match-wins loop is equivalent to this disjunction. -/
def locMatch (question : String) : Bool :=
  locationTerms.any (fun term => strIncludes (strLower question) term)

/-- Embedding of `SQLGenerator.buildWhereClause`.  The source pushes conditions and
parameters sequentially while incrementing `paramIndex`; the embedding
builds the same four groups in the same order, with the placeholder
index of each group offset by the number of parameters pushed before
it. -/
def buildWhereClause (question : String) (mappings : List ColumnMapping)
    (userWords : List String) (now : JDate) : SQLQuery :=
  let lq := strLower question
  -- date filtering ($1, $2)
  let dateRange := extractDateRange question now
  let dateConds : List String := match dateRange with
    | some _ => ["trips.started_at >= $1::timestamp", "trips.started_at <= $2::timestamp"]
    | none => []
  let dateParams : List PVal := match dateRange with
    | some dr => [PVal.str (toSqlTimestamp dr.start), PVal.str (toSqlTimestamp dr.«end»)]
    | none => []
  -- gender filtering
  let i1 := 1 + dateParams.length
  let genderPair : List String × List PVal :=
    if strIncludes lq "women" || strIncludes lq "female" then
      (["trips.rider_gender = $" ++ natRepr i1], [PVal.str "female"])
    else if strIncludes lq "men" || strIncludes lq "male" then
      (["trips.rider_gender = $" ++ natRepr i1], [PVal.str "male"])
    else ([], [])
  -- weather filtering
  let i2 := i1 + genderPair.2.length
  let weatherPair : List String × List PVal :=
    if strIncludes lq "rainy" || strIncludes lq "rain" then
      (["daily_weather.precipitation_mm > $" ++ natRepr i2], [PVal.num 0])
    else ([], [])
  -- location filtering (first matching term wins, then the loop breaks)
  let i3 := i2 + weatherPair.2.length
  let locPair : List String × List PVal :=
    if locMatch question then
      (["stations.station_name ILIKE $" ++ natRepr i3], [PVal.str "%Congress Avenue%"])
    else ([], [])
  let conditions := dateConds ++ genderPair.1 ++ weatherPair.1 ++ locPair.1
  let params := dateParams ++ genderPair.2 ++ weatherPair.2 ++ locPair.2
  match conditions with
  | [] => { sql := "", params := [] }
  | _ => { sql := "WHERE " ++ joinAnd conditions, params := params }

/-- Embedding of `SQLGenerator.buildGroupByClause`. -/
def buildGroupByClause (context : SemanticContext) (mappings : List ColumnMapping) :
    SQLQuery :=
  if context.intent = QueryIntent.max ∨ context.intent = QueryIntent.count then
    match findColumn mappings ["station", "point", "dock", "name", "avenue"] with
    | some maxColumn =>
      if strIncludes maxColumn.column "station" || strIncludes maxColumn.column "id" then
        { sql := "GROUP BY stations.station_name", params := [] }
      else
        { sql := "GROUP BY " ++ maxColumn.table ++ "." ++ maxColumn.column, params := [] }
    | none => { sql := "", params := [] }
  else { sql := "", params := [] }

/-- Embedding of `SQLGenerator.buildOrderByClause`. -/
def buildOrderByClause (context : SemanticContext) (_mappings : List ColumnMapping) :
    SQLQuery :=
  if context.intent = QueryIntent.max then
    { sql := "ORDER BY count DESC LIMIT 1", params := [] }
  else { sql := "", params := [] }

/-- Embedding of `SQLGenerator.generateSQL`: build the context, match columns,
synthesize the five clauses, join the non-blank clause texts with
single spaces and concatenate the parameter lists in clause order.
(`now` is the evaluation time read by `new Date()` inside
`extractDateRange`; the cached column lookup is modelled by its
cache-transparent core, see `findBestColumnMatchesCached_idem`.) -/
def generateSQL (schema : List TableInfo) (question : String) (now : JDate) :
    SQLQuery :=
  let context := buildSemanticContext schema question
  let columnMappings := findBestColumnMatches schema context.userWords
  let selectClause := buildSelectClause context columnMappings
  let fromClause := buildFromClause columnMappings question
  let whereClause := buildWhereClause question columnMappings context.userWords now
  let groupByClause := buildGroupByClause context columnMappings
  let orderByClause := buildOrderByClause context columnMappings
  let sql := joinSp (([selectClause.sql, fromClause.sql, whereClause.sql,
                      groupByClause.sql, orderByClause.sql]).filter
                      (fun clause => strTrim clause ≠ ""))
  { sql := sql
    params := selectClause.params ++ fromClause.params ++ whereClause.params ++
              groupByClause.params ++ orderByClause.params }

/-! ### Concrete schemas used by witnesses and counterexamples -/

/-- The production schema the generator's hardcoded column references
are written against (fact table `trips`, dimensions `stations` and
`daily_weather`; see the `trips.started_at`, `trips.rider_gender`,
`trips.trip_distance_km`, `stations.station_id`, `stations.station_name`,
`daily_weather.weather_date`, `daily_weather.precipitation_mm`
references throughout `sql_generator.ts`). -/
def prodSchema : List TableInfo :=
  [⟨"trips",
    [⟨"trip_id", "integer"⟩,
     ⟨"started_at", "timestamp"⟩,
     ⟨"ended_at", "timestamp"⟩,
     ⟨"start_station_id", "integer"⟩,
     ⟨"rider_gender", "varchar"⟩,
     ⟨"trip_distance_km", "numeric"⟩]⟩,
   ⟨"stations",
    [⟨"station_id", "integer"⟩,
     ⟨"station_name", "varchar"⟩]⟩,
   ⟨"daily_weather",
    [⟨"weather_date", "date"⟩,
     ⟨"precipitation_mm", "numeric"⟩]⟩]

/-- The minimal schema of the robustness unit tests (a `trips` table
with a single `id` column). -/
def edgeSchema : List TableInfo := [⟨"trips", [⟨"id", "integer"⟩]⟩]

/-- A fixed evaluation instant for concrete runs (2025-07-15 12:00). -/
def now0 : JDate := ⟨2025, 6, 15, 12, 0, 0, 0⟩

/-! ### Positional-placeholder scanner

`phList s` is the sequence of `$n` placeholder ordinals of `s`, read left
to right (a `$` starts a placeholder, the following maximal digit run is
its ordinal). -/

/-- ASCII digit test (codes 48..57). -/
def isDigitC (c : Char) : Bool := 48 ≤ c.toNat && c.toNat ≤ 57

/-- Scanner core; the `Option Nat` state is the ordinal being read. -/
def scanAux : Option Nat → List Char → List Nat
  | none, [] => []
  | some n, [] => [n]
  | none, c :: t => if c = '$' then scanAux (some 0) t else scanAux none t
  | some n, c :: t =>
    if isDigitC c then scanAux (some (10 * n + (c.toNat - 48))) t
    else n :: (if c = '$' then scanAux (some 0) t else scanAux none t)

/-- The placeholder ordinals of a query text, in order of occurrence. -/
def phList (s : String) : List Nat := scanAux none s.data

/-- No `$` character occurs in the list. -/
def noDollarL (l : List Char) : Bool := l.all (fun c => c != '$')

/-- No `$` character occurs in any identifier of the schema. -/
def schemaNoDollar (schema : List TableInfo) : Bool :=
  schema.all (fun t => noDollarL t.table_name.data &&
    t.columns.all (fun c => noDollarL c.column_name.data))

/-- The SQL control keywords of the injection claim. -/
def sqlKeywords : List String := ["DROP", "DELETE", "UPDATE", "INSERT", "ALTER"]

/-- None of the SQL control keywords occurs in `s`. -/
def KwSafe (s : String) : Prop := ∀ kw ∈ sqlKeywords, ¬ SubL kw.data s.data

/-! ### Specification-side score formula (claim C6)

The claim describes the score as "the maximum of three candidates …
plus a fixed 0.1 bonus"; `specScore` is that description verbatim, to be
compared against the loop-style `matchSimilarity` of the source. -/

/-- Maximum of the three candidate scores of the claim: 0.9 direct
containment, 0.8 synonym containment, and the Dice similarity
(`rmax` agrees with `Max.max` on ℚ, see `rmax_eq_max`). -/
def specBase (word columnName : String) : ℚ :=
  rmax
    (rmax
      (if strIncludes columnName word || strIncludes word columnName then (9 : ℚ)/10 else 0)
      (if (getSynonyms word).any
            (fun syn => strIncludes columnName syn || strIncludes syn columnName)
         then (8 : ℚ)/10 else 0))
    (compareTwoStrings word columnName)

/-- The claim's score: base maximum plus the unclamped 0.1 table bonus. -/
def specScore (word columnName tableName : String) : ℚ :=
  specBase word columnName +
    (if strIncludes tableName word || strIncludes word tableName then (1 : ℚ)/10 else 0)

/-- The flattened candidate list described by the claim: every
(table, column, token) triple whose `specScore` reaches the threshold. -/
def specCandidates (schema : List TableInfo) (userWords : List String)
    (minSimilarity : ℚ) : List ColumnMapping :=
  schema.flatMap fun table =>
    table.columns.flatMap fun column =>
      let columnName := strLower column.column_name
      let tableName := strLower table.table_name
      userWords.filterMap fun word =>
        let similarity := specScore word columnName tableName
        if minSimilarity ≤ similarity then
          some ⟨tableName, columnName, similarity, column.data_type⟩
        else none

/-! ### Lemmas about the substring relation -/

theorem strData_append (a b : String) : (a ++ b).data = a.data ++ b.data := by
  cases a; cases b; rfl

theorem subL_appendR {pat x : List Char} (suf : List Char) (h : SubL pat x) :
    SubL pat (x ++ suf) := by
  obtain ⟨s, t, rfl⟩ := h
  exact ⟨s, t ++ suf, by simp⟩

theorem subL_appendL {pat x : List Char} (pre : List Char) (h : SubL pat x) :
    SubL pat (pre ++ x) := by
  obtain ⟨s, t, rfl⟩ := h
  exact ⟨pre ++ s, t, by simp⟩

theorem subL_trans {a b c : List Char} (h1 : SubL a b) (h2 : SubL b c) : SubL a c := by
  obtain ⟨s, t, rfl⟩ := h1
  obtain ⟨u, v, rfl⟩ := h2
  exact ⟨u ++ s, t ++ v, by simp⟩

theorem subL_reverse {pat l : List Char} (h : SubL pat l) :
    SubL pat.reverse l.reverse := by
  obtain ⟨s, t, rfl⟩ := h
  exact ⟨t.reverse, s.reverse, by simp⟩

theorem isPre_self_append (pat t : List Char) : isPre pat (pat ++ t) = true := by
  induction pat with
  | nil => rfl
  | cons a as ih => simp [isPre, ih]

theorem listContains_complete {hay pat : List Char} (h : SubL pat hay) :
    listContains hay pat = true := by
  obtain ⟨s, t, rfl⟩ := h
  induction s with
  | nil => rw [listContains.eq_def]; simp [isPre_self_append]
  | cons c cs ih =>
    rw [List.cons_append, listContains.eq_def]
    split
    · rfl
    · exact ih

theorem not_subL_of_contains_false {hay pat : List Char}
    (h : listContains hay pat = false) : ¬ SubL pat hay := by
  intro hs
  rw [listContains_complete hs] at h
  exact Bool.noConfusion h

theorem mem_of_headq {c : Char} {l : List Char} (h : l.head? = some c) : c ∈ l := by
  cases l with
  | nil => simp at h
  | cons x xs => simp at h; simp [h]

/-- The cornerstone of the injection argument: an all-uppercase pattern
occurring in `a ++ b` occurs entirely in `a` or entirely in `b`, provided
`b` does not start with an uppercase character (so no occurrence can
straddle the junction). -/
theorem subL_split_head {pat a b : List Char} (hup : pat.all isUp = true)
    (hne : pat ≠ []) (hb : ∀ c, b.head? = some c → isUp c = false) :
    SubL pat (a ++ b) → SubL pat a ∨ SubL pat b := by
  rintro ⟨s, t, heq⟩
  have heq2 : a ++ b = s ++ (pat ++ t) := by simpa [List.append_assoc] using heq
  rcases List.append_eq_append_iff.mp heq2 with ⟨w, hs, hbw⟩ | ⟨w, ha, hw⟩
  · -- the pattern sits inside b
    exact Or.inr ⟨w, t, by simpa [List.append_assoc] using hbw⟩
  · -- a = s ++ w  and  pat ++ t = w ++ b
    rcases List.append_eq_append_iff.mp hw with ⟨x, hwx, htx⟩ | ⟨x, hpx, hbx⟩
    · -- w = pat ++ x : the pattern sits inside a
      exact Or.inl ⟨s, x, by simp [ha, hwx, List.append_assoc]⟩
    · -- pat = w ++ x and b = x ++ t
      cases x with
      | nil =>
        have hpw : pat = w := by simpa using hpx
        exact Or.inl ⟨s, [], by simp [ha, hpw]⟩
      | cons c x2 =>
        exfalso
        have hcb : isUp c = false := hb c (by simp [hbx])
        have hcp : c ∈ pat := by simp [hpx]
        have := List.all_eq_true.mp hup c hcp
        rw [this] at hcb
        exact Bool.noConfusion hcb

theorem not_subL_of_all_notUp {pat l : List Char} (hup : pat.all isUp = true)
    (hne : pat ≠ []) (hl : ∀ c ∈ l, isUp c = false) : ¬ SubL pat l := by
  rintro ⟨s, t, rfl⟩
  cases pat with
  | nil => exact hne rfl
  | cons c pt =>
    have hc : isUp c = true := List.all_eq_true.mp hup c (by simp)
    have hcl : c ∈ s ++ (c :: pt) ++ t := by simp
    rw [hl c hcl] at hc
    exact Bool.noConfusion hc

theorem subL_absorb_right {pat a b : List Char} (hup : pat.all isUp = true)
    (hne : pat ≠ []) (hb : ∀ c ∈ b, isUp c = false) :
    SubL pat (a ++ b) → SubL pat a := by
  intro h
  rcases subL_split_head hup hne (fun c hc => hb c (mem_of_headq hc)) h with h1 | h1
  · exact h1
  · exact absurd h1 (not_subL_of_all_notUp hup hne hb)

theorem subL_absorb_left {pat a b : List Char} (hup : pat.all isUp = true)
    (hne : pat ≠ []) (ha : ∀ c ∈ a, isUp c = false) :
    SubL pat (a ++ b) → SubL pat b := by
  intro h
  have h2 := subL_reverse h
  rw [List.reverse_append] at h2
  have hup2 : pat.reverse.all isUp = true := by
    rw [List.all_eq_true] at hup ⊢
    intro c hc
    exact hup c (List.mem_reverse.mp hc)
  have hne2 : pat.reverse ≠ [] := by simpa using hne
  have ha2 : ∀ c ∈ a.reverse, isUp c = false := fun c hc =>
    ha c (List.mem_reverse.mp hc)
  have h3 := subL_absorb_right hup2 hne2 ha2 h2
  have h4 := subL_reverse h3
  simpa using h4

theorem subL_mid {pat a m b : List Char} (hup : pat.all isUp = true)
    (hne : pat ≠ []) (hm : ∀ c ∈ m, isUp c = false) (hm0 : m ≠ []) :
    SubL pat (a ++ m ++ b) → SubL pat a ∨ SubL pat b := by
  intro h
  have h2 : SubL pat (a ++ (m ++ b)) := by simpa [List.append_assoc] using h
  have hd : ∀ c, (m ++ b).head? = some c → isUp c = false := by
    intro c hc
    cases m with
    | nil => exact absurd rfl hm0
    | cons x xs =>
      simp only [List.cons_append, List.head?_cons, Option.some.injEq] at hc
      rw [← hc]
      exact hm x (by simp)
  rcases subL_split_head hup hne hd h2 with h1 | h1
  · exact Or.inl h1
  · exact Or.inr (subL_absorb_left hup hne hm h1)

/-! ### Lemmas about lower-casing -/

theorem toNat_ofNat_lt {n : Nat} (h : n < 55296) : (Char.ofNat n).toNat = n := by
  have hv : n.isValidChar := Or.inl h
  rw [Char.ofNat, dif_pos hv]
  rfl

theorem isUp_jsToLower (c : Char) : isUp (jsToLower c) = false := by
  rw [jsToLower]
  by_cases h : isUp c = true
  · rw [if_pos h]
    have hn : c.toNat ≤ 90 := by
      have := h
      rw [isUp, Bool.and_eq_true] at this
      exact Nat.le_of_ble_eq_true (by simpa using this.2)
    have h2 : (Char.ofNat (c.toNat + 32)).toNat = c.toNat + 32 :=
      toNat_ofNat_lt (by omega)
    have h65 : 65 ≤ c.toNat := by
      rw [isUp, Bool.and_eq_true] at h
      exact Nat.le_of_ble_eq_true (by simpa using h.1)
    rw [isUp, h2]
    simp only [Bool.and_eq_false_iff]
    right
    simp only [decide_eq_false_iff_not]
    omega
  · rw [if_neg h]
    exact Bool.eq_false_iff.mpr (fun hc => h hc)

theorem notUp_strLower (s : String) : ∀ c ∈ (strLower s).data, isUp c = false := by
  intro c hc
  rw [strLower] at hc
  simp only [List.mem_map] at hc
  obtain ⟨x, _, rfl⟩ := hc
  exact isUp_jsToLower x

theorem jsToLower_ne_dollar {c : Char} (h : c ≠ '$') : jsToLower c ≠ '$' := by
  rw [jsToLower]
  by_cases hu : isUp c = true
  · rw [if_pos hu]
    intro hx
    have h65 : 65 ≤ c.toNat := by
      rw [isUp, Bool.and_eq_true] at hu
      exact Nat.le_of_ble_eq_true (by simpa using hu.1)
    have h90 : c.toNat ≤ 90 := by
      rw [isUp, Bool.and_eq_true] at hu
      exact Nat.le_of_ble_eq_true (by simpa using hu.2)
    have h2 : (Char.ofNat (c.toNat + 32)).toNat = c.toNat + 32 :=
      toNat_ofNat_lt (by omega)
    have : (Char.ofNat (c.toNat + 32)).toNat = ('$' : Char).toNat := by rw [hx]
    rw [h2] at this
    have : c.toNat + 32 = 36 := this
    omega
  · rw [if_neg hu]
    exact h

theorem noDollarL_strLower {s : String} (h : noDollarL s.data = true) :
    noDollarL (strLower s).data = true := by
  rw [noDollarL, List.all_eq_true] at h ⊢
  intro c hc
  rw [strLower] at hc
  simp only [List.mem_map] at hc
  obtain ⟨x, hx, rfl⟩ := hc
  have := h x hx
  simp only [bne_iff_ne, ne_eq] at this ⊢
  exact jsToLower_ne_dollar this

/-! ### Lemmas about the placeholder scanner -/

theorem scanAux_append (s : Option Nat) (a b : List Char)
    (hb : ∀ c, b.head? = some c → isDigitC c = false) :
    scanAux s (a ++ b) = scanAux s a ++ scanAux none b := by
  induction a generalizing s with
  | nil =>
    cases s with
    | none => simp [scanAux]
    | some n =>
      cases b with
      | nil => simp [scanAux]
      | cons c t =>
        have hc := hb c rfl
        simp [scanAux, hc]
  | cons x xs ih =>
    cases s with
    | none =>
      by_cases hx : x = '$' <;> simp [scanAux, hx, ih]
    | some n =>
      by_cases hd : isDigitC x
      · simp [scanAux, hd, ih]
      · by_cases hx : x = '$' <;>
          simp [scanAux, hd, hx, ih, show isDigitC '$' = false from rfl]

theorem scanAux_none_noDollar {a : List Char} (h : noDollarL a = true) :
    scanAux none a = [] := by
  induction a with
  | nil => rfl
  | cons c t ih =>
    rw [noDollarL, List.all_cons, Bool.and_eq_true] at h
    have hc : c ≠ '$' := by simpa [bne_iff_ne] using h.1
    rw [scanAux, if_neg hc]
    exact ih h.2

theorem phList_of_noDollar {s : String} (h : noDollarL s.data = true) :
    phList s = [] := scanAux_none_noDollar h

theorem phList_joinSp_cons (p : String) (ps : List String) :
    phList (joinSp (p :: ps)) = phList p ++ phList (joinSp ps) := by
  cases ps with
  | nil => simp [joinSp, phList, scanAux]
  | cons q t =>
    show phList (p ++ " " ++ joinSp (q :: t)) = _
    have h1 : (p ++ " " ++ joinSp (q :: t)).data
        = p.data ++ (' ' :: (joinSp (q :: t)).data) := by
      rw [strData_append, strData_append, List.append_assoc]
      rfl
    rw [phList, h1, scanAux_append none _ _ ?hb]
    case hb =>
      intro c hc
      simp only [List.head?_cons, Option.some.injEq] at hc
      rw [← hc]
      rfl
    have h2 : scanAux none (' ' :: (joinSp (q :: t)).data)
        = scanAux none (joinSp (q :: t)).data := by
      rw [scanAux, if_neg (by decide)]
    rw [h2]
    rfl

/-! ### Lemmas about `trim` and `join` -/

theorem trimL_ne_nil {l : List Char} (c : Char) (hc : c ∈ l) (hw : isWs c = false) :
    trimL l ≠ [] := by
  intro h
  rw [trimL] at h
  have h2 : (l.dropWhile isWs).reverse.dropWhile isWs = [] := by
    simpa using h
  rw [List.dropWhile_eq_nil_iff] at h2
  have h3 : ∀ x ∈ l.dropWhile isWs, isWs x = true := fun x hx =>
    h2 x (List.mem_reverse.mpr hx)
  have h4 : c ∈ l.takeWhile isWs ++ l.dropWhile isWs := by
    rw [List.takeWhile_append_dropWhile]
    exact hc
  rcases List.mem_append.mp h4 with h5 | h5
  · have := List.mem_takeWhile_imp h5
    rw [hw] at this
    exact Bool.noConfusion this
  · rw [h3 c h5] at hw
    exact Bool.noConfusion hw

theorem strTrim_ne_empty {s : String} (c : Char) (hc : c ∈ s.data)
    (hw : isWs c = false) : strTrim s ≠ "" := by
  intro h
  have h2 : (strTrim s).data = "".data := congrArg String.data h
  exact trimL_ne_nil c hc hw h2

theorem subL_head_append (x y : String) : SubL x.data (x ++ y).data := by
  rw [strData_append]
  exact ⟨[], y.data, by simp⟩

theorem strAppend_assoc (a b c : String) : (a ++ b) ++ c = a ++ (b ++ c) := by
  cases a with | mk da => cases b with | mk db => cases c with | mk dc =>
  show String.mk ((da ++ db) ++ dc) = String.mk (da ++ (db ++ dc))
  rw [List.append_assoc]

theorem subL_joinSp_of_mem {p : String} {ps : List String} (h : p ∈ ps) :
    SubL p.data (joinSp ps).data := by
  induction ps with
  | nil => simp at h
  | cons a t ih =>
    rcases List.mem_cons.mp h with rfl | h2
    · cases t with
      | nil => exact ⟨[], [], by simp [joinSp]⟩
      | cons b t2 =>
        show SubL p.data (p ++ " " ++ joinSp (b :: t2)).data
        rw [strAppend_assoc]
        exact subL_head_append _ _
    · cases t with
      | nil => simp at h2
      | cons b t2 =>
        show SubL p.data (a ++ " " ++ joinSp (b :: t2)).data
        rw [strData_append]
        exact subL_appendL _ (ih h2)

theorem subL_joinAnd_of_mem {p : String} {ps : List String} (h : p ∈ ps) :
    SubL p.data (joinAnd ps).data := by
  induction ps with
  | nil => simp at h
  | cons a t ih =>
    rcases List.mem_cons.mp h with rfl | h2
    · cases t with
      | nil => exact ⟨[], [], by simp [joinAnd]⟩
      | cons b t2 =>
        show SubL p.data (p ++ " AND " ++ joinAnd (b :: t2)).data
        rw [strAppend_assoc]
        exact subL_head_append _ _
    · cases t with
      | nil => simp at h2
      | cons b t2 =>
        show SubL p.data (a ++ " AND " ++ joinAnd (b :: t2)).data
        rw [strData_append]
        exact subL_appendL _ (ih h2)

theorem joinSp_cons_ne_empty {p : String} (ps : List String) (h : p.data ≠ []) :
    joinSp (p :: ps) ≠ "" := by
  intro hempty
  have h2 : (joinSp (p :: ps)).data = [] := congrArg String.data hempty
  cases ps with
  | nil => exact h h2
  | cons q t =>
    rw [show joinSp (p :: q :: t) = p ++ " " ++ joinSp (q :: t) from rfl,
        strData_append, strData_append] at h2
    rcases List.append_eq_nil.mp h2 with ⟨h3, -⟩
    rcases List.append_eq_nil.mp h3 with ⟨h4, -⟩
    exact h h4

/-! ### Digit-character lemmas -/

theorem toNat_digitChar (n : Nat) : (digitChar n).toNat = 48 + n % 10 := by
  rw [digitChar]
  exact toNat_ofNat_lt (by omega)

theorem isDigitC_digitChar (n : Nat) : isDigitC (digitChar n) = true := by
  rw [isDigitC, toNat_digitChar]
  have : n % 10 < 10 := Nat.mod_lt _ (by omega)
  simp only [Bool.and_eq_true, decide_eq_true_eq]
  omega

theorem natReprCore_digits (fuel n : Nat) (acc : List Char)
    (hacc : ∀ c ∈ acc, isDigitC c = true) :
    ∀ c ∈ natReprCore fuel n acc, isDigitC c = true := by
  induction fuel generalizing n acc with
  | zero => exact hacc
  | succ f ih =>
    rw [natReprCore]
    have hcons : ∀ c ∈ digitChar (n % 10) :: acc, isDigitC c = true := by
      intro c hc
      rcases List.mem_cons.mp hc with rfl | h
      · exact isDigitC_digitChar _
      · exact hacc c h
    split
    · exact hcons
    · exact ih _ _ hcons

theorem natRepr_digits (n : Nat) : ∀ c ∈ (natRepr n).data, isDigitC c = true :=
  natReprCore_digits (n + 1) n [] (by simp)

theorem notUp_of_digit {c : Char} (h : isDigitC c = true) : isUp c = false := by
  rw [isDigitC, Bool.and_eq_true, decide_eq_true_eq, decide_eq_true_eq] at h
  rw [isUp]
  simp only [Bool.and_eq_false_iff, decide_eq_false_iff_not]
  left
  omega

theorem ne_dollar_of_digit {c : Char} (h : isDigitC c = true) : c ≠ '$' := by
  rw [isDigitC, Bool.and_eq_true, decide_eq_true_eq, decide_eq_true_eq] at h
  intro hc
  rw [hc] at h
  simp at h

/-! ### Keyword-safety helpers (claim C2) -/

theorem kw_facts : ∀ kw ∈ sqlKeywords, kw.data.all isUp = true ∧ kw.data ≠ [] := by
  decide

theorem kwSafe_of_all_notUp {s : String} (h : ∀ c ∈ s.data, isUp c = false) :
    KwSafe s := fun kw hkw =>
  not_subL_of_all_notUp (kw_facts kw hkw).1 (kw_facts kw hkw).2 h

theorem kwSafe_of_contains (s : String)
    (h : sqlKeywords.all (fun kw => !(listContains s.data kw.data)) = true) :
    KwSafe s := by
  intro kw hkw
  have h2 := List.all_eq_true.mp h kw hkw
  rw [Bool.not_eq_true'] at h2
  exact not_subL_of_contains_false h2

theorem kwSafe_append_head {a b : String} (ha : KwSafe a) (hb : KwSafe b)
    (hd : ∀ c, b.data.head? = some c → isUp c = false) : KwSafe (a ++ b) := by
  intro kw hkw hsub
  rw [strData_append] at hsub
  rcases subL_split_head (kw_facts kw hkw).1 (kw_facts kw hkw).2 hd hsub with h | h
  · exact ha kw hkw h
  · exact hb kw hkw h

theorem kwSafe_append_notUpR {a b : String} (ha : KwSafe a)
    (hb : ∀ c ∈ b.data, isUp c = false) : KwSafe (a ++ b) := by
  intro kw hkw hsub
  rw [strData_append] at hsub
  exact ha kw hkw
    (subL_absorb_right (kw_facts kw hkw).1 (kw_facts kw hkw).2 hb hsub)

theorem kwSafe_append_notUpL {a b : String} (hb : KwSafe b)
    (ha : ∀ c ∈ a.data, isUp c = false) : KwSafe (a ++ b) := by
  intro kw hkw hsub
  rw [strData_append] at hsub
  exact hb kw hkw
    (subL_absorb_left (kw_facts kw hkw).1 (kw_facts kw hkw).2 ha hsub)

theorem kwSafe_sandwich {a m b : String} (ha : KwSafe a) (hb : KwSafe b)
    (hm : ∀ c ∈ m.data, isUp c = false) (hm0 : m.data ≠ []) :
    KwSafe (a ++ m ++ b) := by
  intro kw hkw hsub
  rw [strData_append, strData_append] at hsub
  rcases subL_mid (kw_facts kw hkw).1 (kw_facts kw hkw).2 hm hm0 hsub with h | h
  · exact ha kw hkw h
  · exact hb kw hkw h

theorem kwSafe_empty : KwSafe "" := by
  intro kw hkw hsub
  obtain ⟨s, t, hst⟩ := hsub
  have h0 : s ++ kw.data ++ t = [] := hst.symm
  rcases List.append_eq_nil.mp h0 with ⟨h1, -⟩
  rcases List.append_eq_nil.mp h1 with ⟨-, h2⟩
  exact (kw_facts kw hkw).2 h2

theorem kwSafe_joinSp {ps : List String} (h : ∀ p ∈ ps, KwSafe p) :
    KwSafe (joinSp ps) := by
  induction ps with
  | nil => exact kwSafe_empty
  | cons p t ih =>
    cases t with
    | nil => exact h p (by simp)
    | cons q t2 =>
      show KwSafe (p ++ " " ++ joinSp (q :: t2))
      exact kwSafe_sandwich (h p (by simp))
        (ih (fun x hx => h x (List.mem_cons_of_mem _ hx)))
        (by intro c hc; simp at hc; subst hc; rfl) (by simp)

/-! ### Lemmas about the column matcher -/

theorem insertDesc_perm (m : ColumnMapping) (l : List ColumnMapping) :
    List.Perm (insertDesc m l) (m :: l) := by
  induction l with
  | nil => rfl
  | cons x xs ih =>
    rw [insertDesc]
    split_ifs
    · rfl
    · exact (ih.cons x).trans (List.Perm.swap m x xs)

theorem sortDesc_perm (l : List ColumnMapping) : List.Perm (sortDesc l) l := by
  induction l with
  | nil => rfl
  | cons a t ih => exact (insertDesc_perm a (sortDesc t)).trans (ih.cons a)

theorem mem_sortDesc {m : ColumnMapping} {l : List ColumnMapping} :
    m ∈ sortDesc l ↔ m ∈ l := (sortDesc_perm l).mem_iff

theorem insertDesc_sorted (m : ColumnMapping) {l : List ColumnMapping}
    (h : List.Sorted (fun a b => b.similarity ≤ a.similarity) l) :
    List.Sorted (fun a b => b.similarity ≤ a.similarity) (insertDesc m l) := by
  induction l with
  | nil => simp [insertDesc]
  | cons x xs ih =>
    rw [insertDesc]
    rw [List.sorted_cons] at h
    split_ifs with hle
    · rw [List.sorted_cons]
      refine ⟨?_, List.sorted_cons.mpr h⟩
      intro b hb
      rcases List.mem_cons.mp hb with rfl | hb2
      · exact hle
      · exact le_trans (h.1 b hb2) hle
    · rw [List.sorted_cons]
      refine ⟨?_, ih h.2⟩
      intro b hb
      have hmem := (insertDesc_perm m xs).mem_iff.mp hb
      rcases List.mem_cons.mp hmem with rfl | hb2
      · exact le_of_not_le hle
      · exact h.1 b hb2

theorem sortDesc_sorted (l : List ColumnMapping) :
    List.Sorted (fun a b => b.similarity ≤ a.similarity) (sortDesc l) := by
  induction l with
  | nil => simp [sortDesc]
  | cons a t ih => exact insertDesc_sorted a ih

theorem rmax_eq_max (a b : ℚ) : rmax a b = Max.max a b := by
  rw [rmax, max_def]

theorem foldl_syn (s1 : ℚ) (syns : List String) (cn : String) :
    syns.foldl (fun s syn =>
      if strIncludes cn syn || strIncludes syn cn then rmax s ((8 : ℚ)/10) else s) s1
    = if syns.any (fun syn => strIncludes cn syn || strIncludes syn cn)
      then rmax s1 ((8 : ℚ)/10) else s1 := by
  induction syns generalizing s1 with
  | nil => simp
  | cons a t ih =>
    rw [List.foldl_cons, List.any_cons]
    cases ha : (strIncludes cn a || strIncludes a cn) with
    | true =>
      rw [ih]
      by_cases ht : (t.any fun syn => strIncludes cn syn || strIncludes syn cn) = true <;>
        simp [ht, rmax_eq_max, max_assoc, max_self]
    | false =>
      rw [ih]
      simp

theorem matchSimilarity_eq_spec (w cn tn : String) :
    matchSimilarity w cn tn = specScore w cn tn := by
  simp only [matchSimilarity, specScore, specBase, foldl_syn]
  have h09 : Max.max (0 : ℚ) (9/10) = (9 : ℚ)/10 := by norm_num
  have h90 : Max.max ((9 : ℚ)/10) 0 = (9 : ℚ)/10 := by norm_num
  have h00 : Max.max (0 : ℚ) 0 = (0 : ℚ) := by norm_num
  cases hd : (strIncludes cn w || strIncludes w cn) <;>
    cases hs : ((getSynonyms w).any fun syn => strIncludes cn syn || strIncludes syn cn) <;>
    cases hb : (strIncludes tn w || strIncludes w tn) <;>
    simp [hd, hs, hb, rmax_eq_max, h09, h90, h00]

theorem findBestColumnMatches_eq_spec (schema : List TableInfo)
    (ws : List String) (minS : ℚ) :
    findBestColumnMatches schema ws minS = sortDesc (specCandidates schema ws minS) := by
  rw [findBestColumnMatches, specCandidates]
  simp only [matchSimilarity_eq_spec]

theorem mem_findBestColumnMatches {m : ColumnMapping} {schema : List TableInfo}
    {ws : List String} {minS : ℚ}
    (h : m ∈ findBestColumnMatches schema ws minS) :
    (∃ t ∈ schema, ∃ col ∈ t.columns, m.table = strLower t.table_name
      ∧ m.column = strLower col.column_name ∧ m.type = col.data_type)
    ∧ minS ≤ m.similarity := by
  rw [findBestColumnMatches, mem_sortDesc] at h
  simp only [List.mem_flatMap, List.mem_filterMap] at h
  obtain ⟨t, ht, c, hc, w, hw, hif⟩ := h
  by_cases hle : minS ≤ matchSimilarity w (strLower c.column_name) (strLower t.table_name)
  · rw [if_pos hle] at hif
    have hm := Option.some.inj hif
    subst hm
    exact ⟨⟨t, ht, c, hc, rfl, rfl, rfl⟩, hle⟩
  · rw [if_neg hle] at hif
    exact absurd hif (by simp)

theorem findNumericColumnLoop_none {mappings : List ColumnMapping} {kws : List String}
    (h : ∀ m ∈ mappings, isNumericMapping m = false) :
    findNumericColumnLoop mappings kws = none := by
  induction kws with
  | nil => rfl
  | cons k ks ih =>
    rw [findNumericColumnLoop]
    have hfind : mappings.find? (fun m =>
        (strIncludes (strLower m.column) k || strIncludes (strLower m.table) k)
        && isNumericMapping m) = none := by
      rw [List.find?_eq_none]
      intro x hx
      simp [h x hx]
    rw [hfind]
    exact ih

theorem findNumericColumn_none_iff {mappings : List ColumnMapping} {kws : List String} :
    findNumericColumn mappings kws = none ↔
      ∀ m ∈ mappings, isNumericMapping m = false := by
  constructor
  · intro h
    rw [findNumericColumn] at h
    cases hl : findNumericColumnLoop mappings kws with
    | some x => rw [hl] at h; exact absurd h (by simp)
    | none =>
      rw [hl] at h
      simp only at h
      rw [List.find?_eq_none] at h
      intro m hm
      simpa using h m hm
  · intro hall
    rw [findNumericColumn, findNumericColumnLoop_none hall]
    simp only
    rw [List.find?_eq_none]
    intro x hx
    simp [hall x hx]

/-! ### Bounds on the Dice similarity -/

theorem interCount_le_right (b1 b2 : List (Char × Char)) :
    interCount b1 b2 ≤ b2.length := by
  induction b2 generalizing b1 with
  | nil => simp [interCount]
  | cons x xs ih =>
    rw [interCount]
    split_ifs
    · have := ih (b1.erase x)
      simp only [List.length_cons]
      omega
    · have := ih b1
      simp only [List.length_cons]
      omega

theorem interCount_le_left (b1 b2 : List (Char × Char)) :
    interCount b1 b2 ≤ b1.length := by
  induction b2 generalizing b1 with
  | nil => simp [interCount]
  | cons x xs ih =>
    rw [interCount]
    split_ifs with hc
    · have hmem : x ∈ b1 := by
        rw [List.contains_iff_exists_mem_beq] at hc
        obtain ⟨y, hy, hxy⟩ := hc
        rwa [show x = y from by simpa using hxy]
      have hlen : (b1.erase x).length = b1.length - 1 := List.length_erase_of_mem hmem
      have hpos : 0 < b1.length := List.length_pos.mpr (by rintro rfl; simp at hmem)
      have := ih (b1.erase x)
      omega
    · exact ih b1

theorem bigrams_length : ∀ l : List Char, (bigrams l).length = l.length - 1
  | [] => rfl
  | [_] => rfl
  | a :: b :: t => by
    rw [bigrams, List.length_cons, bigrams_length (b :: t)]
    simp only [List.length_cons]
    omega

theorem compareTwoStrings_bounds (a b : String) :
    0 ≤ compareTwoStrings a b ∧ compareTwoStrings a b ≤ 1 := by
  simp only [compareTwoStrings]
  split_ifs with h1 h2
  · norm_num
  · norm_num
  · set F := a.data.filter (fun c => !isWs c) with hF
    set S := b.data.filter (fun c => !isWs c) with hS
    push_neg at h2
    obtain ⟨hF2, hS2⟩ := h2
    set i := interCount (bigrams F) (bigrams S) with hi
    have hiF : i ≤ F.length - 1 := by
      have := interCount_le_left (bigrams F) (bigrams S)
      rwa [bigrams_length] at this
    have hiS : i ≤ S.length - 1 := by
      have := interCount_le_right (bigrams F) (bigrams S)
      rwa [bigrams_length] at this
    have hnum : (2 * i : Nat) ≤ F.length + S.length - 2 := by omega
    have hd : (0 : ℚ) < (F.length : ℚ) + (S.length : ℚ) - 2 := by
      have : (2 : ℚ) ≤ (F.length : ℚ) := by exact_mod_cast hF2
      have : (2 : ℚ) ≤ (S.length : ℚ) := by exact_mod_cast hS2
      have h2F : (2 : ℚ) ≤ (F.length : ℚ) := by exact_mod_cast hF2
      linarith
    constructor
    · apply div_nonneg _ (le_of_lt hd)
      positivity
    · rw [div_le_one hd]
      have : ((2 * i : Nat) : ℚ) ≤ ((F.length + S.length - 2 : Nat) : ℚ) := by
        exact_mod_cast hnum
      have hcast : ((F.length + S.length - 2 : Nat) : ℚ)
          = (F.length : ℚ) + (S.length : ℚ) - 2 := by
        have : 2 ≤ F.length + S.length := by omega
        push_cast [Nat.cast_sub this]
        ring
      rw [hcast] at this
      calc 2 * (i : ℚ) = ((2 * i : Nat) : ℚ) := by push_cast; ring
        _ ≤ _ := this

/-! ### Substring soundness (for concrete membership arguments) -/

theorem isPre_sound {pat hay : List Char} (h : isPre pat hay = true) :
    ∃ t, hay = pat ++ t := by
  induction pat generalizing hay with
  | nil => exact ⟨hay, rfl⟩
  | cons a as ih =>
    cases hay with
    | nil => exact absurd h (by simp [isPre])
    | cons b bs =>
      rw [isPre, Bool.and_eq_true] at h
      obtain ⟨t, ht⟩ := ih h.2
      have hab : a = b := by simpa using h.1
      exact ⟨t, by rw [hab, List.cons_append, ← ht]⟩

theorem subL_of_contains {hay pat : List Char} (h : listContains hay pat = true) :
    SubL pat hay := by
  induction hay with
  | nil =>
    rw [listContains.eq_def] at h
    split at h
    · rename_i hp
      obtain ⟨t, ht⟩ := isPre_sound hp
      exact ⟨[], t, ht⟩
    · exact absurd h (by simp)
  | cons c t ih =>
    rw [listContains.eq_def] at h
    split at h
    · rename_i hp
      obtain ⟨u, hu⟩ := isPre_sound hp
      exact ⟨[], u, hu⟩
    · exact subL_appendL [c] (ih h)

/-! ### Helpers for the clause builders -/

theorem mem_of_dedupFirstAux {x : String} :
    ∀ {l seen : List String}, x ∈ dedupFirstAux seen l → x ∈ l := by
  intro l
  induction l with
  | nil => intro seen h; simp [dedupFirstAux] at h
  | cons a t ih =>
    intro seen h
    rw [dedupFirstAux] at h
    split_ifs at h
    · exact List.mem_cons_of_mem _ (ih h)
    · rcases List.mem_cons.mp h with rfl | h2
      · exact List.mem_cons_self _ _
      · exact List.mem_cons_of_mem _ (ih h2)

theorem mem_of_dedupFirst {x : String} {l : List String} (h : x ∈ dedupFirst l) :
    x ∈ l := mem_of_dedupFirstAux h

theorem mem_of_headq_gen {α : Type} {c : α} {l : List α} (h : l.head? = some c) :
    c ∈ l := by
  cases l with
  | nil => simp at h
  | cons x xs => simp at h; simp [h]

theorem findColumnLoop_mem {mappings : List ColumnMapping} {x : ColumnMapping} :
    ∀ {kws : List String}, findColumnLoop mappings kws = some x → x ∈ mappings := by
  intro kws
  induction kws with
  | nil => intro h; exact absurd h (by simp [findColumnLoop])
  | cons k ks ih =>
    intro h
    rw [findColumnLoop] at h
    cases hf : mappings.find? (fun m =>
        strIncludes (strLower m.column) k || strIncludes (strLower m.table) k) with
    | some y =>
      rw [hf] at h
      have hxy := Option.some.inj h
      subst hxy
      exact List.mem_of_find?_eq_some hf
    | none =>
      rw [hf] at h
      exact ih h

theorem findColumn_mem {mappings : List ColumnMapping} {kws : List String}
    {x : ColumnMapping} (h : findColumn mappings kws = some x) : x ∈ mappings := by
  simp only [findColumn] at h
  split at h
  · rename_i m hts
    have hmx := Option.some.inj h
    subst hmx
    split at hts
    · exact List.mem_of_find?_eq_some hts
    · exact absurd hts (by simp)
  · split at h
    · rename_i hl
      have hxy := Option.some.inj h
      subst hxy
      exact findColumnLoop_mem hl
    · exact mem_of_headq_gen h

theorem buildSelectClause_params (ctx : SemanticContext) (m : List ColumnMapping) :
    (buildSelectClause ctx m).params = [] := by
  rw [buildSelectClause]
  cases ctx.intent <;> simp only <;> (try split) <;> (try split) <;> rfl

theorem buildFromClause_params (m : List ColumnMapping) (q : String) :
    (buildFromClause m q).params = [] := by
  simp only [buildFromClause]
  split_ifs <;> rfl

theorem buildGroupByClause_params (ctx : SemanticContext) (m : List ColumnMapping) :
    (buildGroupByClause ctx m).params = [] := by
  rw [buildGroupByClause]
  split_ifs
  · split
    · split_ifs <;> rfl
    · rfl
  · rfl

theorem buildOrderByClause_params (ctx : SemanticContext) (m : List ColumnMapping) :
    (buildOrderByClause ctx m).params = [] := by
  rw [buildOrderByClause]
  split_ifs <;> rfl

theorem generateSQL_params_eq_where (schema : List TableInfo) (q : String) (now : JDate) :
    (generateSQL schema q now).params =
      (buildWhereClause q
        (findBestColumnMatches schema (buildSemanticContext schema q).userWords)
        (buildSemanticContext schema q).userWords now).params := by
  simp only [generateSQL]
  rw [buildSelectClause_params, buildFromClause_params, buildGroupByClause_params,
      buildOrderByClause_params]
  simp

/-! ### The four parameter groups of the filter builder, in push order -/

/-- Date-range parameters (two inclusive bounds), when a range was
extracted. -/
def dateParamsOf (question : String) (now : JDate) : List PVal :=
  match extractDateRange question now with
  | some dr => [PVal.str (toSqlTimestamp dr.start), PVal.str (toSqlTimestamp dr.«end»)]
  | none => []

/-- Gender parameter: `female` wins over `male`, first match only. -/
def genderParamsOf (question : String) : List PVal :=
  if strIncludes (strLower question) "women" || strIncludes (strLower question) "female" then
    [PVal.str "female"]
  else if strIncludes (strLower question) "men" || strIncludes (strLower question) "male" then
    [PVal.str "male"]
  else []

/-- Weather parameter: the fixed `0` precipitation threshold. -/
def weatherParamsOf (question : String) : List PVal :=
  if strIncludes (strLower question) "rainy" || strIncludes (strLower question) "rain" then
    [PVal.num 0]
  else []

/-- Location parameter: one fixed pattern at most, whatever matched. -/
def locParamsOf (question : String) : List PVal :=
  if locMatch question then [PVal.str "%Congress Avenue%"] else []

theorem buildWhereClause_params (q : String) (m : List ColumnMapping)
    (uw : List String) (now : JDate) :
    (buildWhereClause q m uw now).params =
      dateParamsOf q now ++ genderParamsOf q ++ weatherParamsOf q ++ locParamsOf q := by
  simp only [buildWhereClause, dateParamsOf, genderParamsOf, weatherParamsOf, locParamsOf]
  cases hdr : extractDateRange q now <;>
  by_cases h1 : (strIncludes (strLower q) "women" || strIncludes (strLower q) "female") = true <;>
  by_cases h2 : (strIncludes (strLower q) "men" || strIncludes (strLower q) "male") = true <;>
  by_cases h3 : (strIncludes (strLower q) "rainy" || strIncludes (strLower q) "rain") = true <;>
  by_cases h4 : locMatch q = true <;>
  simp [hdr, h1, h2, h3, h4]

theorem buildWhereClause_phList (q : String) (m : List ColumnMapping)
    (uw : List String) (now : JDate) :
    phList (buildWhereClause q m uw now).sql
      = List.range' 1 (buildWhereClause q m uw now).params.length := by
  simp only [buildWhereClause]
  cases hdr : extractDateRange q now <;>
  by_cases h1 : (strIncludes (strLower q) "women" || strIncludes (strLower q) "female") = true <;>
  by_cases h2 : (strIncludes (strLower q) "men" || strIncludes (strLower q) "male") = true <;>
  by_cases h3 : (strIncludes (strLower q) "rainy" || strIncludes (strLower q) "rain") = true <;>
  by_cases h4 : locMatch q = true <;>
  simp [hdr, h1, h2, h3, h4] <;>
  decide

theorem buildWhereClause_kwSafe (q : String) (m : List ColumnMapping)
    (uw : List String) (now : JDate) :
    KwSafe (buildWhereClause q m uw now).sql := by
  simp only [buildWhereClause]
  cases hdr : extractDateRange q now <;>
  by_cases h1 : (strIncludes (strLower q) "women" || strIncludes (strLower q) "female") = true <;>
  by_cases h2 : (strIncludes (strLower q) "men" || strIncludes (strLower q) "male") = true <;>
  by_cases h3 : (strIncludes (strLower q) "rainy" || strIncludes (strLower q) "rain") = true <;>
  by_cases h4 : locMatch q = true <;>
  simp [hdr, h1, h2, h3, h4] <;>
  exact kwSafe_of_contains _ (by decide)

/-- With no date range, no gender, weather or location vocabulary, the
filter is empty. -/
theorem buildWhereClause_empty (q : String) (m : List ColumnMapping)
    (uw : List String) (now : JDate)
    (hdr : extractDateRange q now = none)
    (h1 : (strIncludes (strLower q) "women" || strIncludes (strLower q) "female") = false)
    (h2 : (strIncludes (strLower q) "men" || strIncludes (strLower q) "male") = false)
    (h3 : (strIncludes (strLower q) "rainy" || strIncludes (strLower q) "rain") = false)
    (h4 : locMatch q = false) :
    buildWhereClause q m uw now = { sql := "", params := [] } := by
  simp [buildWhereClause, hdr, h1, h2, h3, h4]

/-- Under men/male vocabulary (and no women/female), the compiled filter
text contains the gender equality predicate. -/
theorem buildWhereClause_male_sql (q : String) (m : List ColumnMapping)
    (uw : List String) (now : JDate)
    (h1 : (strIncludes (strLower q) "women" || strIncludes (strLower q) "female") = false)
    (h2 : (strIncludes (strLower q) "men" || strIncludes (strLower q) "male") = true) :
    SubL ("trips.rider_gender = $").data (buildWhereClause q m uw now).sql.data := by
  simp only [buildWhereClause]
  cases hdr : extractDateRange q now <;>
  by_cases h3 : (strIncludes (strLower q) "rainy" || strIncludes (strLower q) "rain") = true <;>
  by_cases h4 : locMatch q = true <;>
  simp [hdr, h1, h2, h3, h4] <;>
  exact subL_of_contains (by decide)

/-! ### Clause-level character facts -/

theorem noDollarS_append {a b : String} (ha : noDollarL a.data = true)
    (hb : noDollarL b.data = true) : noDollarL (a ++ b).data = true := by
  rw [strData_append, noDollarL, List.all_append]
  rw [noDollarL] at ha hb
  simp [ha, hb]

theorem notUp_append {a b : String} (ha : ∀ c ∈ a.data, isUp c = false)
    (hb : ∀ c ∈ b.data, isUp c = false) : ∀ c ∈ (a ++ b).data, isUp c = false := by
  intro c hc
  rw [strData_append] at hc
  rcases List.mem_append.mp hc with h | h
  exacts [ha c h, hb c h]

theorem headNotUp_of (b : String) (c0 : Char) (h0 : b.data.head? = some c0)
    (hc0 : isUp c0 = false) : ∀ c, b.data.head? = some c → isUp c = false := by
  intro c hc
  rw [h0] at hc
  have := Option.some.inj hc
  subst this
  exact hc0

theorem headD_mem_or (l : List String) : l.headD "" ∈ l ∨ l.headD "" = "" := by
  cases l <;> simp

/-- Every mapping produced by the matcher carries lower-cased (hence
uppercase-free) table and column names. -/
theorem mappings_clean (schema : List TableInfo) (ws : List String) (minS : ℚ) :
    ∀ x ∈ findBestColumnMatches schema ws minS,
      (∀ c ∈ x.table.data, isUp c = false) ∧ (∀ c ∈ x.column.data, isUp c = false) := by
  intro x hx
  obtain ⟨⟨t, _, col, _, htab, hcol, _⟩, -⟩ := mem_findBestColumnMatches hx
  rw [htab, hcol]
  exact ⟨notUp_strLower _, notUp_strLower _⟩

/-- If the schema identifiers carry no `$`, neither do the matcher's
mapping names. -/
theorem mappings_noDollar (schema : List TableInfo) (ws : List String) (minS : ℚ)
    (hsch : schemaNoDollar schema = true) :
    ∀ x ∈ findBestColumnMatches schema ws minS,
      noDollarL x.table.data = true ∧ noDollarL x.column.data = true := by
  intro x hx
  obtain ⟨⟨t, ht, col, hcol, htab, hcolname, -⟩, -⟩ := mem_findBestColumnMatches hx
  rw [schemaNoDollar, List.all_eq_true] at hsch
  have h1 := hsch t ht
  rw [Bool.and_eq_true, List.all_eq_true] at h1
  rw [htab, hcolname]
  exact ⟨noDollarL_strLower h1.1, noDollarL_strLower (h1.2 col hcol)⟩

theorem buildSelectClause_noDollar (ctx : SemanticContext) (m : List ColumnMapping)
    (hm : ∀ x ∈ m, noDollarL x.table.data = true ∧ noDollarL x.column.data = true) :
    noDollarL (buildSelectClause ctx m).sql.data = true := by
  obtain ⟨tb, uw, intent⟩ := ctx
  rw [buildSelectClause]
  cases intent <;> dsimp only
  case count => decide
  case average => split <;> decide
  case sum => split <;> decide
  case max =>
    split
    · rename_i mc hmc
      have h := hm mc (findColumn_mem hmc)
      split_ifs
      · decide
      · exact noDollarS_append (noDollarS_append (noDollarS_append
          (noDollarS_append (by decide) h.1) (by decide)) h.2) (by decide)
    · decide
  case list =>
    split
    · rename_i mc hmc
      have h := hm mc (findColumn_mem hmc)
      exact noDollarS_append (noDollarS_append (noDollarS_append
        (by decide) h.1) (by decide)) h.2
    · decide
  case min => decide
  case filter => decide

theorem buildSelectClause_kwSafe (ctx : SemanticContext) (m : List ColumnMapping)
    (hm : ∀ x ∈ m, (∀ c ∈ x.table.data, isUp c = false)
          ∧ (∀ c ∈ x.column.data, isUp c = false)) :
    KwSafe (buildSelectClause ctx m).sql := by
  obtain ⟨tb, uw, intent⟩ := ctx
  rw [buildSelectClause]
  cases intent <;> dsimp only
  case count => exact kwSafe_of_contains _ (by decide)
  case average => split <;> exact kwSafe_of_contains _ (by decide)
  case sum => split <;> exact kwSafe_of_contains _ (by decide)
  case max =>
    split
    · rename_i mc hmc
      have h := hm mc (findColumn_mem hmc)
      split_ifs
      · exact kwSafe_of_contains _ (by decide)
      · refine kwSafe_append_head ?_ (kwSafe_of_contains _ (by decide))
          (headNotUp_of _ ',' rfl (by decide))
        refine kwSafe_append_notUpR ?_ h.2
        refine kwSafe_append_notUpR ?_ (by decide)
        exact kwSafe_append_notUpR (kwSafe_of_contains _ (by decide)) h.1
    · exact kwSafe_of_contains _ (by decide)
  case list =>
    split
    · rename_i mc hmc
      have h := hm mc (findColumn_mem hmc)
      refine kwSafe_append_notUpR ?_ h.2
      refine kwSafe_append_notUpR ?_ (by decide)
      exact kwSafe_append_notUpR (kwSafe_of_contains _ (by decide)) h.1
    · exact kwSafe_of_contains _ (by decide)
  case min => exact kwSafe_of_contains _ (by decide)
  case filter => exact kwSafe_of_contains _ (by decide)

theorem buildSelectClause_head (ctx : SemanticContext) (m : List ColumnMapping) :
    (buildSelectClause ctx m).sql.data.head? = some 'S' := by
  obtain ⟨tb, uw, intent⟩ := ctx
  rw [buildSelectClause]
  cases intent <;> dsimp only <;> (try split) <;> (try split_ifs) <;>
    simp [strData_append]

theorem buildFromClause_noDollar (m : List ColumnMapping) (q : String)
    (hm : ∀ x ∈ m, noDollarL x.table.data = true) :
    noDollarL (buildFromClause m q).sql.data = true := by
  have htab : ∀ t0, t0 ∈ dedupFirst (m.map (fun x => x.table)) →
      noDollarL t0.data = true := by
    intro t0 ht0
    obtain ⟨x, hx, hxe⟩ := List.mem_map.mp (mem_of_dedupFirst ht0)
    rw [← hxe]
    exact hm x hx
  simp only [buildFromClause]
  split_ifs <;> try decide
  all_goals {
    rcases headD_mem_or (dedupFirst (m.map (fun x => x.table))) with hmem | he
    · exact noDollarS_append (by decide) (htab _ hmem)
    · rw [he]; decide
  }

theorem buildFromClause_kwSafe (m : List ColumnMapping) (q : String)
    (hm : ∀ x ∈ m, ∀ c ∈ x.table.data, isUp c = false) :
    KwSafe (buildFromClause m q).sql := by
  have htab : ∀ t0, t0 ∈ dedupFirst (m.map (fun x => x.table)) →
      ∀ c ∈ t0.data, isUp c = false := by
    intro t0 ht0
    obtain ⟨x, hx, hxe⟩ := List.mem_map.mp (mem_of_dedupFirst ht0)
    rw [← hxe]
    exact hm x hx
  simp only [buildFromClause]
  split_ifs <;> try exact kwSafe_of_contains _ (by decide)
  all_goals {
    rcases headD_mem_or (dedupFirst (m.map (fun x => x.table))) with hmem | he
    · exact kwSafe_append_notUpR (kwSafe_of_contains _ (by decide)) (htab _ hmem)
    · rw [he]; exact kwSafe_of_contains _ (by decide)
  }

theorem buildFromClause_head (m : List ColumnMapping) (q : String) :
    (buildFromClause m q).sql.data.head? = some 'F' := by
  simp only [buildFromClause]
  split_ifs <;> simp [strData_append]

theorem buildGroupByClause_noDollar (ctx : SemanticContext) (m : List ColumnMapping)
    (hm : ∀ x ∈ m, noDollarL x.table.data = true ∧ noDollarL x.column.data = true) :
    noDollarL (buildGroupByClause ctx m).sql.data = true := by
  rw [buildGroupByClause]
  split_ifs
  · split
    · rename_i mc hmc
      have h := hm mc (findColumn_mem hmc)
      split_ifs
      · decide
      · exact noDollarS_append (noDollarS_append (noDollarS_append
          (by decide) h.1) (by decide)) h.2
    · decide
  · decide

theorem buildGroupByClause_kwSafe (ctx : SemanticContext) (m : List ColumnMapping)
    (hm : ∀ x ∈ m, (∀ c ∈ x.table.data, isUp c = false)
          ∧ (∀ c ∈ x.column.data, isUp c = false)) :
    KwSafe (buildGroupByClause ctx m).sql := by
  rw [buildGroupByClause]
  split_ifs
  · split
    · rename_i mc hmc
      have h := hm mc (findColumn_mem hmc)
      split_ifs
      · exact kwSafe_of_contains _ (by decide)
      · refine kwSafe_append_notUpR ?_ h.2
        refine kwSafe_append_notUpR ?_ (by decide)
        exact kwSafe_append_notUpR (kwSafe_of_contains _ (by decide)) h.1
    · exact kwSafe_empty
  · exact kwSafe_empty

theorem buildGroupByClause_shape (ctx : SemanticContext) (m : List ColumnMapping) :
    (buildGroupByClause ctx m).sql = "" ∨
      (buildGroupByClause ctx m).sql.data.head? = some 'G' := by
  rw [buildGroupByClause]
  split_ifs
  · split
    · split_ifs
      · right; rfl
      · right; simp [strData_append]
    · left; rfl
  · left; rfl

theorem buildOrderByClause_shape (ctx : SemanticContext) (m : List ColumnMapping) :
    (buildOrderByClause ctx m).sql = "" ∨
      (buildOrderByClause ctx m).sql.data.head? = some 'O' := by
  rw [buildOrderByClause]
  split_ifs
  · right; rfl
  · left; rfl

theorem buildOrderByClause_noDollar (ctx : SemanticContext) (m : List ColumnMapping) :
    noDollarL (buildOrderByClause ctx m).sql.data = true := by
  rw [buildOrderByClause]
  split_ifs <;> decide

theorem buildOrderByClause_kwSafe (ctx : SemanticContext) (m : List ColumnMapping) :
    KwSafe (buildOrderByClause ctx m).sql := by
  rw [buildOrderByClause]
  split_ifs
  · exact kwSafe_of_contains _ (by decide)
  · exact kwSafe_empty

theorem buildWhereClause_shape (q : String) (m : List ColumnMapping)
    (uw : List String) (now : JDate) :
    (buildWhereClause q m uw now).sql = "" ∨
      (buildWhereClause q m uw now).sql.data.head? = some 'W' := by
  simp only [buildWhereClause]
  split
  · left; rfl
  · right; simp [strData_append]

/-! ### Assembly lemmas for `generateSQL` -/

theorem phList_empty : phList "" = [] := rfl

theorem strTrim_empty : strTrim "" = "" := rfl

theorem phList_joinSp (ps : List String) :
    phList (joinSp ps) = (ps.map phList).flatten := by
  induction ps with
  | nil => rfl
  | cons p t ih => rw [phList_joinSp_cons, ih]; rfl

theorem phList_parts (s1 s2 s3 s4 s5 : String)
    (h1 : phList s1 = []) (h2 : phList s2 = [])
    (h4 : phList s4 = []) (h5 : phList s5 = [])
    (k1 : strTrim s1 ≠ "") (k2 : strTrim s2 ≠ "")
    (w3 : s3 = "" ∨ strTrim s3 ≠ "")
    (w4 : s4 = "" ∨ strTrim s4 ≠ "") (w5 : s5 = "" ∨ strTrim s5 ≠ "") :
    phList (joinSp (([s1, s2, s3, s4, s5]).filter (fun c => strTrim c ≠ "")))
      = phList s3 := by
  rcases w3 with rfl | k3 <;> rcases w4 with rfl | k4 <;> rcases w5 with rfl | k5 <;>
    simp [List.filter_cons, phList_joinSp, strTrim_empty, phList_empty,
          h1, h2, h4, h5, k1, k2, *]

theorem generateSQL_phList (schema : List TableInfo) (q : String) (now : JDate)
    (hsch : schemaNoDollar schema = true) :
    phList (generateSQL schema q now).sql
      = List.range' 1 (generateSQL schema q now).params.length := by
  have hndm := mappings_noDollar schema (buildSemanticContext schema q).userWords
    (3/10) hsch
  rw [generateSQL_params_eq_where]
  simp only [generateSQL]
  have hA : phList (buildSelectClause (buildSemanticContext schema q)
      (findBestColumnMatches schema (buildSemanticContext schema q).userWords)).sql = [] :=
    phList_of_noDollar (buildSelectClause_noDollar _ _ hndm)
  have hB : phList (buildFromClause
      (findBestColumnMatches schema (buildSemanticContext schema q).userWords) q).sql = [] :=
    phList_of_noDollar (buildFromClause_noDollar _ _ (fun x hx => (hndm x hx).1))
  have hD : phList (buildGroupByClause (buildSemanticContext schema q)
      (findBestColumnMatches schema (buildSemanticContext schema q).userWords)).sql = [] :=
    phList_of_noDollar (buildGroupByClause_noDollar _ _ hndm)
  have hE : phList (buildOrderByClause (buildSemanticContext schema q)
      (findBestColumnMatches schema (buildSemanticContext schema q).userWords)).sql = [] :=
    phList_of_noDollar (buildOrderByClause_noDollar _ _)
  have k1 : strTrim (buildSelectClause (buildSemanticContext schema q)
      (findBestColumnMatches schema (buildSemanticContext schema q).userWords)).sql ≠ "" :=
    strTrim_ne_empty 'S' (mem_of_headq (buildSelectClause_head _ _)) (by decide)
  have k2 : strTrim (buildFromClause
      (findBestColumnMatches schema (buildSemanticContext schema q).userWords) q).sql ≠ "" :=
    strTrim_ne_empty 'F' (mem_of_headq (buildFromClause_head _ _)) (by decide)
  have w3 : (buildWhereClause q
        (findBestColumnMatches schema (buildSemanticContext schema q).userWords)
        (buildSemanticContext schema q).userWords now).sql = ""
      ∨ strTrim (buildWhereClause q
        (findBestColumnMatches schema (buildSemanticContext schema q).userWords)
        (buildSemanticContext schema q).userWords now).sql ≠ "" := by
    rcases buildWhereClause_shape q _ _ now with h | h
    · exact Or.inl h
    · exact Or.inr (strTrim_ne_empty 'W' (mem_of_headq h) (by decide))
  have w4 : (buildGroupByClause (buildSemanticContext schema q)
        (findBestColumnMatches schema (buildSemanticContext schema q).userWords)).sql = ""
      ∨ strTrim (buildGroupByClause (buildSemanticContext schema q)
        (findBestColumnMatches schema (buildSemanticContext schema q).userWords)).sql ≠ "" := by
    rcases buildGroupByClause_shape _ _ with h | h
    · exact Or.inl h
    · exact Or.inr (strTrim_ne_empty 'G' (mem_of_headq h) (by decide))
  have w5 : (buildOrderByClause (buildSemanticContext schema q)
        (findBestColumnMatches schema (buildSemanticContext schema q).userWords)).sql = ""
      ∨ strTrim (buildOrderByClause (buildSemanticContext schema q)
        (findBestColumnMatches schema (buildSemanticContext schema q).userWords)).sql ≠ "" := by
    rcases buildOrderByClause_shape _ _ with h | h
    · exact Or.inl h
    · exact Or.inr (strTrim_ne_empty 'O' (mem_of_headq h) (by decide))
  rw [phList_parts _ _ _ _ _ hA hB hD hE k1 k2 w3 w4 w5]
  exact buildWhereClause_phList q _ _ now

theorem generateSQL_kwSafe (schema : List TableInfo) (q : String) (now : JDate) :
    KwSafe (generateSQL schema q now).sql := by
  have hm1 := mappings_clean schema (buildSemanticContext schema q).userWords (3/10)
  simp only [generateSQL]
  apply kwSafe_joinSp
  intro p hp
  have hp2 := List.mem_of_mem_filter hp
  simp only [List.mem_cons, List.not_mem_nil, or_false] at hp2
  rcases hp2 with rfl | rfl | rfl | rfl | rfl
  · exact buildSelectClause_kwSafe _ _ hm1
  · exact buildFromClause_kwSafe _ _ (fun x hx => (hm1 x hx).1)
  · exact buildWhereClause_kwSafe _ _ _ _
  · exact buildGroupByClause_kwSafe _ _ hm1
  · exact buildOrderByClause_kwSafe _ _

theorem generateSQL_sql_ne_empty (schema : List TableInfo) (q : String) (now : JDate) :
    (generateSQL schema q now).sql ≠ "" := by
  simp only [generateSQL]
  have hhead := buildSelectClause_head (buildSemanticContext schema q)
    (findBestColumnMatches schema (buildSemanticContext schema q).userWords)
  have k1 : strTrim (buildSelectClause (buildSemanticContext schema q)
      (findBestColumnMatches schema (buildSemanticContext schema q).userWords)).sql ≠ "" :=
    strTrim_ne_empty 'S' (mem_of_headq hhead) (by decide)
  rw [List.filter_cons, if_pos (by simpa using k1)]
  apply joinSp_cons_ne_empty
  intro hnil
  rw [hnil] at hhead
  simp at hhead

/-- With no column matches, filter intent, and none of the filter or
join vocabularies present, the compiled query is the degenerate
`SELECT * FROM trips` with no parameters. -/
theorem generateSQL_degenerate (schema : List TableInfo) (q : String) (now : JDate)
    (hMaps : findBestColumnMatches schema (extractUserWords q) = [])
    (hIntent : detectIntent q = QueryIntent.filter)
    (hdr : extractDateRange q now = none)
    (h1 : (strIncludes (strLower q) "women" || strIncludes (strLower q) "female") = false)
    (h2 : (strIncludes (strLower q) "men" || strIncludes (strLower q) "male") = false)
    (h3 : (strIncludes (strLower q) "rainy" || strIncludes (strLower q) "rain") = false)
    (h4 : locMatch q = false)
    (hS : needsStationsB q = false) (hW : needsWeatherB q = false) :
    generateSQL schema q now = { sql := "SELECT * FROM trips", params := [] } := by
  simp [generateSQL, buildSemanticContext, hMaps, hIntent, buildSelectClause,
        buildFromClause, hS, hW,
        buildWhereClause_empty q _ _ now hdr h1 h2 h3 h4,
        buildGroupByClause, buildOrderByClause, joinSp, strTrim_empty]

/-! ### Remaining claim-specific helper lemmas -/

theorem strAppend_empty (s : String) : s ++ "" = s := by
  cases s with | mk d =>
  show String.mk (d ++ []) = String.mk d
  rw [List.append_nil]

theorem subL_ne_nil {pat l : List Char} (hp : pat ≠ []) (h : SubL pat l) : l ≠ [] := by
  rintro rfl
  obtain ⟨s, t, hst⟩ := h
  rcases List.append_eq_nil.mp hst.symm with ⟨h1, -⟩
  rcases List.append_eq_nil.mp h1 with ⟨-, h2⟩
  exact hp h2

/-- A cache hit returns the stored list and leaves the cache unchanged;
hence re-invoking the cached matcher with the very same token sequence
reproduces the first call's output and state. -/
theorem cached_idem (cache : Cache) (schema : List TableInfo) (ws : List String) :
    findBestColumnMatchesCached (findBestColumnMatchesCached cache schema ws).2 schema ws
      = findBestColumnMatchesCached cache schema ws := by
  simp only [findBestColumnMatchesCached]
  cases hl : List.lookup (cacheKey ws) cache with
  | some v => simp [hl]
  | none => simp [hl, List.lookup]

/-- The two divergent from-clause branches: a single matched table
`trips` with the station need set, and the multi-table branch. -/
theorem buildFromClause_branch_facts (m : List ColumnMapping) (q : String) :
    (m ≠ [] → dedupFirst (m.map (fun x => x.table)) = ["trips"] →
      needsStationsB q = true →
      (buildFromClause m q).sql =
        "FROM trips LEFT JOIN stations ON trips.start_station_id = stations.station_id" ++
        (if needsWeatherB q = true
         then " LEFT JOIN daily_weather ON DATE(trips.start_time) = daily_weather.date"
         else ""))
    ∧ (m ≠ [] → 1 < (dedupFirst (m.map (fun x => x.table))).length →
        (dedupFirst (m.map (fun x => x.table))).contains "trips" = true →
      (buildFromClause m q).sql =
        "FROM trips" ++
        (if ((dedupFirst (m.map (fun x => x.table))).contains "stations" || needsStationsB q) = true
         then " LEFT JOIN stations ON trips.start_station_id = stations.station_id" else "") ++
        (if ((dedupFirst (m.map (fun x => x.table))).contains "daily_weather" || needsWeatherB q) = true
         then " LEFT JOIN daily_weather ON DATE(trips.started_at) = daily_weather.weather_date"
         else "")) := by
  constructor
  · intro hne hts hns
    have hlen : ¬ m.length = 0 := by
      intro h
      exact hne (List.length_eq_zero.mp h)
    simp only [buildFromClause, hts, hns]
    rw [if_neg hlen]
    simp only [List.length_cons, List.length_nil, List.headD_cons, if_pos rfl]
    split_ifs <;> simp_all [strAppend_empty]
  · intro hne hlen2 htr
    have hlen : ¬ m.length = 0 := by
      intro h
      exact hne (List.length_eq_zero.mp h)
    have hlen1 : ¬ (dedupFirst (m.map (fun x => x.table))).length = 1 := by omega
    simp only [buildFromClause, htr]
    rw [if_neg hlen, if_neg hlen1]
    split_ifs <;> simp_all [strAppend_empty, strAppend_assoc]

/-- The first-week rule fires only for the month June (hardcoded 2025),
and is shadowed by the "last month" rule. -/
theorem extractDateRange_firstWeekJune (q : String) (now : JDate)
    (hfw : strIncludes (strLower q) "first week" = true)
    (hj : strIncludes (strLower q) "june" = true)
    (hlm : strIncludes (strLower q) "last month" = false) :
    extractDateRange q now =
      some ⟨⟨2025, 5, 1, 0, 0, 0, 0⟩, ⟨2025, 5, 7, 23, 59, 59, 999⟩⟩ := by
  simp [extractDateRange, hfw, hj, hlm]

/-- For the AVERAGE intent the elapsed-minutes projection is emitted
exactly when some numeric-typed candidate exists (of any flavor), and
`SELECT *` is emitted otherwise. -/
theorem buildSelectClause_average (ctx : SemanticContext) (m : List ColumnMapping)
    (h : ctx.intent = QueryIntent.average) :
    ((∃ x ∈ m, isNumericMapping x = true) →
      (buildSelectClause ctx m).sql =
        "SELECT ROUND(AVG(EXTRACT(EPOCH FROM (trips.ended_at - trips.started_at))/60)) as average")
    ∧ ((∀ x ∈ m, isNumericMapping x = false) →
      (buildSelectClause ctx m).sql = "SELECT *") := by
  obtain ⟨tb, uw, intent⟩ := ctx
  simp only at h
  subst h
  rw [buildSelectClause]
  dsimp only
  cases hf : findNumericColumn m ["time", "duration", "minutes", "hours"] with
  | some x =>
    constructor
    · intro _; rfl
    · intro hall
      rw [findNumericColumn_none_iff.mpr hall] at hf
      exact absurd hf (by simp)
  | none =>
    constructor
    · intro ⟨x, hx, hnum⟩
      have := findNumericColumn_none_iff.mp hf x hx
      rw [this] at hnum
      exact absurd hnum (by simp)
    · intro _; rfl

/-! ### The claims -/

/-- C1: for every question string, the compiled query's text contains
exactly as many positional placeholders (`$1`, `$2`, …) as the compiled
parameter sequence has entries, with placeholder ordinal `i`
corresponding 1:1 to parameter index `i-1` — the left-to-right
placeholder ordinals are exactly `1, …, n` for `n` parameters.  (Stated
for any schema whose identifiers contain no `$` character, which the
placeholder syntax presupposes.) -/
theorem C1_placeholder_correspondence (schema : List TableInfo) (q : String)
    (now : JDate) (hsch : schemaNoDollar schema = true) :
    phList (generateSQL schema q now).sql
      = List.range' 1 (generateSQL schema q now).params.length :=
  generateSQL_phList schema q now hsch

/-- Witness for C1 at the production schema and an acceptance-test
question. -/
theorem C1_placeholder_correspondence_witness :
    schemaNoDollar prodSchema = true ∧
    phList (generateSQL prodSchema
        "How many kilometres were ridden by women on rainy days in June 2025?" now0).sql
      = List.range' 1 (generateSQL prodSchema
        "How many kilometres were ridden by women on rainy days in June 2025?" now0).params.length :=
  ⟨by decide, C1_placeholder_correspondence prodSchema _ now0 (by decide)⟩

/-- C2: for every question string, no SQL control keyword (`DROP`,
`DELETE`, `UPDATE`, `INSERT`, `ALTER`) occurs as a substring of the
compiled query text, whatever the question contains: the text is
assembled only from fixed fragments and lower-cased schema identifiers,
so these uppercase keywords can never appear. -/
theorem C2_no_injected_keywords (schema : List TableInfo) (q : String) (now : JDate) :
    ∀ kw ∈ sqlKeywords, ¬ SubL kw.data (generateSQL schema q now).sql.data :=
  generateSQL_kwSafe schema q now

/-- Witness for C2 at a unit-test injection payload. -/
theorem C2_no_injected_keywords_witness :
    ¬ SubL ("DROP" : String).data
      (generateSQL prodSchema "'; DROP TABLE trips; --" now0).sql.data :=
  C2_no_injected_keywords prodSchema "'; DROP TABLE trips; --" now0 "DROP" (by decide)

/-- C3: for every question, the compiled bound parameters are exactly
the concatenation, in this order, of: the two inclusive date-range
bounds (when a range was extracted, else nothing), one gender value, one
weather value `0`, and at most one location value
`%Congress Avenue%` — the location group never holds more than one
entry even when several location terms occur in the question. -/
theorem C3_param_order (schema : List TableInfo) (q : String) (now : JDate) :
    (generateSQL schema q now).params =
      dateParamsOf q now ++ genderParamsOf q ++ weatherParamsOf q ++ locParamsOf q
    ∧ (∀ dr, extractDateRange q now = some dr →
        dateParamsOf q now =
          [PVal.str (toSqlTimestamp dr.start), PVal.str (toSqlTimestamp dr.«end»)])
    ∧ (extractDateRange q now = none → dateParamsOf q now = [])
    ∧ (genderParamsOf q = [] ∨ genderParamsOf q = [PVal.str "female"]
        ∨ genderParamsOf q = [PVal.str "male"])
    ∧ ((strIncludes (strLower q) "rainy" || strIncludes (strLower q) "rain") = true →
        weatherParamsOf q = [PVal.num 0])
    ∧ ((strIncludes (strLower q) "rainy" || strIncludes (strLower q) "rain") = false →
        weatherParamsOf q = [])
    ∧ (locParamsOf q).length ≤ 1
    ∧ (locMatch q = true → locParamsOf q = [PVal.str "%Congress Avenue%"]) := by
  refine ⟨?_, ?_, ?_, ?_, ?_, ?_, ?_, ?_⟩
  · rw [generateSQL_params_eq_where, buildWhereClause_params]
  · intro dr hdr; simp [dateParamsOf, hdr]
  · intro hdr; simp [dateParamsOf, hdr]
  · rw [genderParamsOf]; split_ifs <;> simp
  · intro h; simp [weatherParamsOf, h]
  · intro h; simp [weatherParamsOf, h]
  · rw [locParamsOf]; split_ifs <;> simp
  · intro h; simp [locParamsOf, h]

/-- Witness for C3 at the production schema and the acceptance-test
question that exercises all four parameter groups but the location. -/
theorem C3_param_order_witness :
    (generateSQL prodSchema
        "How many kilometres were ridden by women on rainy days in June 2025?" now0).params =
      dateParamsOf "How many kilometres were ridden by women on rainy days in June 2025?" now0
      ++ genderParamsOf "How many kilometres were ridden by women on rainy days in June 2025?"
      ++ weatherParamsOf "How many kilometres were ridden by women on rainy days in June 2025?"
      ++ locParamsOf "How many kilometres were ridden by women on rainy days in June 2025?" :=
  (C3_param_order prodSchema _ now0).1

/-- C4 counterexample: for the question `congress` the station need is
set, yet the emitted source clause joins on `stations.id`, not on the
claimed fixed key `stations.station_id` — the join predicate is not the
same in every branch. -/
theorem C4_counterexample :
    needsStationsB "congress" = true ∧
    listContains (generateSQL prodSchema "congress" now0).sql.data
      ("LEFT JOIN stations ON trips.start_station_id = stations.station_id" : String).data
      = false ∧
    (generateSQL prodSchema "congress" now0).sql =
      "SELECT * FROM trips LEFT JOIN stations ON trips.start_station_id = stations.id WHERE stations.station_name ILIKE $1" := by
  refine ⟨by decide, by with_unfolding_all decide, by with_unfolding_all decide⟩

/-- C4 (amended): when at least one column matched, the station join
uses the fixed key `trips.start_station_id = stations.station_id`: in
the single-matched-table `trips` branch (where the weather join then
uses `DATE(trips.start_time) = daily_weather.date`), and in the
multi-table branch (where it uses
`DATE(trips.started_at) = daily_weather.weather_date`).  The no-match
branch instead joins on `stations.id`, as the counterexample shows. -/
theorem C4_join_predicates_amended (m : List ColumnMapping) (q : String) :
    (m ≠ [] → dedupFirst (m.map (fun x => x.table)) = ["trips"] →
      needsStationsB q = true →
      (buildFromClause m q).sql =
        "FROM trips LEFT JOIN stations ON trips.start_station_id = stations.station_id" ++
        (if needsWeatherB q = true
         then " LEFT JOIN daily_weather ON DATE(trips.start_time) = daily_weather.date"
         else ""))
    ∧ (m ≠ [] → 1 < (dedupFirst (m.map (fun x => x.table))).length →
        (dedupFirst (m.map (fun x => x.table))).contains "trips" = true →
      (buildFromClause m q).sql =
        "FROM trips" ++
        (if ((dedupFirst (m.map (fun x => x.table))).contains "stations" || needsStationsB q) = true
         then " LEFT JOIN stations ON trips.start_station_id = stations.station_id" else "") ++
        (if ((dedupFirst (m.map (fun x => x.table))).contains "daily_weather" || needsWeatherB q) = true
         then " LEFT JOIN daily_weather ON DATE(trips.started_at) = daily_weather.weather_date"
         else "")) :=
  buildFromClause_branch_facts m q

/-- Witness for amended C4: a single matched trips column with station
vocabulary. -/
theorem C4_join_predicates_witness :
    (buildFromClause [⟨"trips", "started_at", 1, "timestamp"⟩] "station").sql =
      "FROM trips LEFT JOIN stations ON trips.start_station_id = stations.station_id" ++
      (if needsWeatherB "station" = true
       then " LEFT JOIN daily_weather ON DATE(trips.start_time) = daily_weather.date"
       else "") :=
  (C4_join_predicates_amended [⟨"trips", "started_at", 1, "timestamp"⟩] "station").1
    (by simp) (by decide) (by decide)

/-- C5 counterexample: two token sequences with the same token set in a
different order produce different cache keys, and after the first
sequence is cached the permuted sequence misses the cache — they do not
hit the same cache entry. -/
theorem C5_cache_counterexample :
    cacheKey ["station", "docking"] ≠ cacheKey ["docking", "station"] ∧
    List.lookup (cacheKey ["docking", "station"])
      ((findBestColumnMatchesCached [] prodSchema ["station", "docking"]).2) = none := by
  refine ⟨by decide, by with_unfolding_all decide⟩

/-- C5 (amended): the cache key is the order-sensitive join of the token
sequence, so permuted sequences use distinct entries; calling the cached
matcher twice with the same token sequence returns the identical cached
list without recomputation (the second call reproduces the first call's
result and leaves the cache unchanged). -/
theorem C5_cache_idempotent (cache : Cache) (schema : List TableInfo)
    (ws : List String) :
    findBestColumnMatchesCached (findBestColumnMatchesCached cache schema ws).2 schema ws
      = findBestColumnMatchesCached cache schema ws :=
  cached_idem cache schema ws

/-- C6: the match score is the maximum of the three candidates (0.9
direct containment, 0.8 synonym containment, the Dice similarity, which
lies in [0,1]) plus the unclamped 0.1 table-name bonus; a pair is kept
iff the final score reaches `minScore`, and the flattened result is
sorted descending by score. -/
theorem C6_score_formula (schema : List TableInfo) (ws : List String) (minS : ℚ) :
    findBestColumnMatches schema ws minS = sortDesc (specCandidates schema ws minS)
    ∧ List.Sorted (fun a b => b.similarity ≤ a.similarity)
        (findBestColumnMatches schema ws minS)
    ∧ (∀ m ∈ findBestColumnMatches schema ws minS, minS ≤ m.similarity)
    ∧ (∀ w c, 0 ≤ compareTwoStrings w c ∧ compareTwoStrings w c ≤ 1) := by
  refine ⟨findBestColumnMatches_eq_spec schema ws minS, ?_, ?_, ?_⟩
  · rw [findBestColumnMatches_eq_spec]
    exact sortDesc_sorted _
  · exact fun m hm => (mem_findBestColumnMatches hm).2
  · exact fun w c => compareTwoStrings_bounds w c

/-- Witness for C6 at the production schema, the default threshold and a
station token. -/
theorem C6_score_formula_witness :
    findBestColumnMatches prodSchema ["station"] (3/10)
      = sortDesc (specCandidates prodSchema ["station"] (3/10)) :=
  (C6_score_formula prodSchema ["station"] (3/10)).1

/-- C7 counterexample: a "first week" question naming the month July is
not recognized at all — the extractor returns none rather than the
inclusive July 1–7 range the claim requires for every named month. -/
theorem C7_first_week_counterexample :
    strIncludes (strLower "first week of July 2025") "first week" = true ∧
    strIncludes (strLower "first week of July 2025") "july" = true ∧
    extractDateRange "first week of July 2025" now0 = none := by
  refine ⟨by decide, by decide, by decide⟩

/-- C7 (amended): for every question containing "first week" together
with the specific month name June (and not containing "last month",
which takes precedence), the extractor returns the inclusive range from
June 1, 2025 00:00:00.000 to June 7, 2025 23:59:59.999, with the year
hardcoded to 2025; no other named month is recognized by the first-week
rule. -/
theorem C7_first_week_amended (q : String) (now : JDate)
    (hfw : strIncludes (strLower q) "first week" = true)
    (hj : strIncludes (strLower q) "june" = true)
    (hlm : strIncludes (strLower q) "last month" = false) :
    extractDateRange q now =
      some ⟨⟨2025, 5, 1, 0, 0, 0, 0⟩, ⟨2025, 5, 7, 23, 59, 59, 999⟩⟩ :=
  extractDateRange_firstWeekJune q now hfw hj hlm

/-- Witness for amended C7 at the acceptance-test question. -/
theorem C7_first_week_witness :
    extractDateRange
      "Which docking point saw the most departures during the first week of June 2025?" now0 =
      some ⟨⟨2025, 5, 1, 0, 0, 0, 0⟩, ⟨2025, 5, 7, 23, 59, 59, 999⟩⟩ :=
  C7_first_week_amended _ now0 (by decide) (by decide) (by decide)

/-- C8 counterexample: for "average station" the intent is AVERAGE and
no candidate column is time/duration-flavored (no match's column or
table name contains `time`, `duration`, `minutes` or `hours`), yet the
average-of-elapsed-minutes projection is still emitted (through the
any-numeric-column fallback), instead of the claimed fall-through to
`SELECT *`. -/
theorem C8_average_counterexample :
    detectIntent "average station" = QueryIntent.average ∧
    (∀ m ∈ findBestColumnMatches prodSchema (extractUserWords "average station"),
      ∀ kw ∈ (["time", "duration", "minutes", "hours"] : List String),
        (strIncludes (strLower m.column) kw || strIncludes (strLower m.table) kw) = false) ∧
    (buildSelectClause (buildSemanticContext prodSchema "average station")
        (findBestColumnMatches prodSchema
          (buildSemanticContext prodSchema "average station").userWords)).sql =
      "SELECT ROUND(AVG(EXTRACT(EPOCH FROM (trips.ended_at - trips.started_at))/60)) as average" := by
  refine ⟨by decide, by with_unfolding_all decide, by with_unfolding_all decide⟩

/-- C8 (amended): under the AVERAGE intent the elapsed-minutes
projection is emitted iff any numeric-typed candidate exists among the
matches (the time/duration keywords only set a preference — a fallback
accepts any numeric column); only when no numeric-typed candidate exists
does the selection fall through to `SELECT *`. -/
theorem C8_average_projection_amended (ctx : SemanticContext)
    (m : List ColumnMapping) (h : ctx.intent = QueryIntent.average) :
    ((∃ x ∈ m, isNumericMapping x = true) →
      (buildSelectClause ctx m).sql =
        "SELECT ROUND(AVG(EXTRACT(EPOCH FROM (trips.ended_at - trips.started_at))/60)) as average")
    ∧ ((∀ x ∈ m, isNumericMapping x = false) →
      (buildSelectClause ctx m).sql = "SELECT *") :=
  buildSelectClause_average ctx m h

/-- Witness for amended C8: a numeric candidate triggers the average
projection. -/
theorem C8_average_projection_witness :
    (buildSelectClause ⟨[], [], QueryIntent.average⟩
        [⟨"trips", "start_station_id", 9/10, "integer"⟩]).sql =
      "SELECT ROUND(AVG(EXTRACT(EPOCH FROM (trips.ended_at - trips.started_at))/60)) as average" :=
  (C8_average_projection_amended ⟨[], [], QueryIntent.average⟩
      [⟨"trips", "start_station_id", 9/10, "integer"⟩] rfl).1
    ⟨⟨"trips", "start_station_id", 9/10, "integer"⟩, by simp, by decide⟩

/-- C9: `generateSQL` is total and always yields a non-empty query text;
and for a question with no recognizable vocabulary (no column matches,
filter intent, no date/gender/weather/location terms and no
station/weather need), the result is exactly `SELECT * FROM trips` with
an empty parameter list. -/
theorem C9_graceful_degradation :
    (∀ (schema : List TableInfo) (q : String) (now : JDate),
      (generateSQL schema q now).sql ≠ "")
    ∧ (∀ (schema : List TableInfo) (q : String) (now : JDate),
        findBestColumnMatches schema (extractUserWords q) = [] →
        detectIntent q = QueryIntent.filter →
        extractDateRange q now = none →
        (strIncludes (strLower q) "women" || strIncludes (strLower q) "female") = false →
        (strIncludes (strLower q) "men" || strIncludes (strLower q) "male") = false →
        (strIncludes (strLower q) "rainy" || strIncludes (strLower q) "rain") = false →
        locMatch q = false →
        needsStationsB q = false → needsWeatherB q = false →
        generateSQL schema q now = { sql := "SELECT * FROM trips", params := [] }) :=
  ⟨generateSQL_sql_ne_empty,
   fun schema q now h1 h2 h3 h4 h5 h6 h7 h8 h9 =>
     generateSQL_degenerate schema q now h1 h2 h3 h4 h5 h6 h7 h8 h9⟩

/-- Witness for C9 at the robustness-test schema and the nonsense
question of the spec scenario. -/
theorem C9_graceful_degradation_witness :
    generateSQL edgeSchema "Show me unicorn data" now0 =
      { sql := "SELECT * FROM trips", params := [] } :=
  C9_graceful_degradation.2 edgeSchema "Show me unicorn data" now0
    (by with_unfolding_all decide) (by decide) (by decide) (by decide) (by decide)
    (by decide) (by decide) (by decide) (by decide)

/-- C10: gender detection is raw substring containment on the
lower-cased question: whenever it contains "men" anywhere (even inside
an unrelated word) and contains neither "women" nor "female", the
compiled query carries a `trips.rider_gender` equality predicate bound
to the parameter `male`. -/
theorem C10_gender_substring (schema : List TableInfo) (q : String) (now : JDate)
    (hmen : strIncludes (strLower q) "men" = true)
    (hw : strIncludes (strLower q) "women" = false)
    (hf : strIncludes (strLower q) "female" = false) :
    PVal.str "male" ∈ (generateSQL schema q now).params
    ∧ SubL ("trips.rider_gender = $" : String).data
        (generateSQL schema q now).sql.data := by
  have h1 : (strIncludes (strLower q) "women" || strIncludes (strLower q) "female") = false := by
    rw [hw, hf]; rfl
  have h2 : (strIncludes (strLower q) "men" || strIncludes (strLower q) "male") = true := by
    rw [hmen]; rfl
  constructor
  · rw [generateSQL_params_eq_where, buildWhereClause_params]
    have hg : genderParamsOf q = [PVal.str "male"] := by
      simp [genderParamsOf, h1, h2]
    simp [hg]
  · have hsub := buildWhereClause_male_sql q
      (findBestColumnMatches schema (buildSemanticContext schema q).userWords)
      (buildSemanticContext schema q).userWords now h1 h2
    simp only [generateSQL]
    have hWne : (buildWhereClause q
        (findBestColumnMatches schema (buildSemanticContext schema q).userWords)
        (buildSemanticContext schema q).userWords now).sql ≠ "" := by
      intro he
      have hnil := subL_ne_nil (by decide) hsub
      rw [he] at hnil
      exact hnil rfl
    have hWhead : (buildWhereClause q
        (findBestColumnMatches schema (buildSemanticContext schema q).userWords)
        (buildSemanticContext schema q).userWords now).sql.data.head? = some 'W' := by
      rcases buildWhereClause_shape q _ _ now with h | h
      · exact absurd h hWne
      · exact h
    have hkeep : strTrim (buildWhereClause q
        (findBestColumnMatches schema (buildSemanticContext schema q).userWords)
        (buildSemanticContext schema q).userWords now).sql ≠ "" :=
      strTrim_ne_empty 'W' (mem_of_headq hWhead) (by decide)
    refine subL_trans hsub (subL_joinSp_of_mem (List.mem_filter.mpr ⟨?_, ?_⟩))
    · simp
    · simpa using hkeep

/-- Witness for C10: the word "equipment" contains "men". -/
theorem C10_gender_substring_witness :
    PVal.str "male" ∈ (generateSQL prodSchema "equipment" now0).params
    ∧ SubL ("trips.rider_gender = $" : String).data
        (generateSQL prodSchema "equipment" now0).sql.data :=
  C10_gender_substring prodSchema "equipment" now0 (by decide) (by decide) (by decide)

end BikeShare
